import Mathlib

/-!
# Tiny web server (`tiny/tiny_homework.c`): request pipeline

A shallow embedding of `parse_uri`, `get_filetype`, `clienterror`,
`read_requesthdrs`, `serve_static`, `serve_dynamic` and `doit`.

Conventions of the embedding.

* A byte is a `Char`; a C string is the `List Char` of its bytes before the
  terminating NUL.  `cstr` cuts a buffer at its first NUL.
* `MAXLINE` and `MAXBUF` are declared in `csapp.h`, which is not part of the
  sources, and are parameters.  A string that is stored in an array of `cap`
  bytes needs `length < cap`; storing a longer one overruns the array and the
  run leaves the embedding (`fits`).  `parse_uri` receives pointers and has no
  capacity of its own: the arrays are those of `doit`, which checks them.
* `sprintf (buf, "%s...", buf, ...)` formats into a destination that is also
  one of its arguments.  C leaves such a call undefined, so what it stores is a
  parameter of the embedding (`Libc.overlap`) and nothing is assumed about it.
  `libc_append` and `libc_cleared` are the two behaviours met in practice.
* `int` has 32 bits and `long` and `off_t` have 64; a conversion to `int`
  keeps the low 32 bits (`toInt32`).
* A result of `none` means that the run leaves the embedding: a buffer is
  read before it was written, an array is overrun, an index is negative, or a
  loop never ends.
* The connection is the list of bytes the client sends before it closes its
  side; everything the server writes is collected in `Conn.out`, and writing
  does not fail.  What the server prints on its own terminal is left out.
* The file system does not change during a request.
-/

namespace Tiny

/-! ## C library -/

/-- String literal as a list of bytes. -/
def lit (s : String) : List Char := s.toList

/-- Contents of a character buffer read as a C string: the bytes before the first NUL. -/
def cstr (buf : List Char) : List Char := buf.takeWhile (fun c => c != '\x00')

/-- The `isspace` of the C locale: space, `\t`, `\n`, `\v`, `\f`, `\r`. -/
def isspace (c : Char) : Bool :=
  c == ' ' || c == '\t' || c == '\n' || c == '\x0b' || c == '\x0c' || c == '\r'

/-- The `tolower` of the C locale. -/
def tolower (c : Char) : Char := c.toLower

/-- `strstr (haystack, needle)`: the tail of `haystack` that starts at the first
occurrence of `needle`, `none` for a NULL result. -/
def strstr : List Char → List Char → Option (List Char)
  | [], needle => if needle.isEmpty then some [] else none
  | c :: hay, needle =>
    if needle.isPrefixOf (c :: hay) then some (c :: hay) else strstr hay needle

/-- `index (s, c)` for a byte `c` other than NUL: the tail of `s` that starts at
the first `c`, `none` for a NULL result. -/
def index : List Char → Char → Option (List Char)
  | [], _ => none
  | a :: s, c => if a = c then some (a :: s) else index s c

/-- `strcasecmp (a, b)`: difference of the first pair of bytes that differ after
`tolower`, `0` when there is none. -/
def strcasecmp : List Char → List Char → Int
  | [], [] => 0
  | [], b :: _ => 0 - ((tolower b).toNat : Int)
  | a :: _, [] => ((tolower a).toNat : Int)
  | a :: as, b :: bs =>
    if tolower a = tolower b then strcasecmp as bs
    else ((tolower a).toNat : Int) - ((tolower b).toNat : Int)

/-- `strncasecmp (a, b, n)`: `strcasecmp` restricted to the first `n` bytes. -/
def strncasecmp (a b : List Char) (n : Nat) : Int :=
  strcasecmp (a.take n) (b.take n)

/-- Conversion of an integer to `int` (32 bits, two's complement). -/
def toInt32 (n : Int) : Int := (n + 2147483648) % 4294967296 - 2147483648

/-- Value of a run of decimal digits. -/
def digitsVal (ds : List Char) : Nat :=
  ds.foldl (fun acc c => 10 * acc + (c.toNat - 48)) 0

/-- `strtol (s, NULL, 10)`: skips white space, reads an optional sign and the
longest run of digits, and saturates at `LONG_MIN` and `LONG_MAX` (64 bits). -/
def strtol (s : List Char) : Int :=
  let s1 := s.dropWhile isspace
  let v : List Char → Int := fun t => (digitsVal (t.takeWhile Char.isDigit) : Int)
  match s1 with
  | '-' :: t => max (0 - v t) (0 - 9223372036854775808)
  | '+' :: t => min (v t) 9223372036854775807
  | _ => min (v s1) 9223372036854775807

/-- `atoi (s)`, which is `(int) strtol (s, NULL, 10)`. -/
def atoi (s : List Char) : Int := toInt32 (strtol s)

/-- Conversion `%d` of `printf`. -/
def fmt_d (n : Int) : List Char := (toString n).toList

/-- One `%s` conversion of `sscanf`: skips white space and takes the bytes up to
the next white space.  Returns the token (empty when the input ended before any
byte was found) and the text after it. -/
def scan_token (s : List Char) : List Char × List Char :=
  let s1 := s.dropWhile isspace
  (s1.takeWhile (fun c => !isspace c), s1.dropWhile (fun c => !isspace c))

/-- `strcmp (a, b)`: difference of the first pair of bytes that differ, `0` when
there is none. -/
def strcmp : List Char → List Char → Int
  | [], [] => 0
  | [], b :: _ => 0 - (b.toNat : Int)
  | a :: _, [] => (a.toNat : Int)
  | a :: as, b :: bs =>
    if a = b then strcmp as bs else (a.toNat : Int) - (b.toNat : Int)

/-- Storing the string `s` and its NUL in an array of `cap` bytes: `none` when
they do not fit. -/
def fits (cap : Nat) (s : List Char) : Option (List Char) :=
  if s.length < cap then some s else none

/-- The part of the C library the standard leaves open.  `overlap dst tail` is
the string found in the destination after `sprintf (dst, "%s...", dst, ...)`,
where `dst` is the string the destination held and `tail` the text the rest of
the format produces; `none` when the call leaves no string. -/
structure Libc where
  overlap : List Char → List Char → Option (List Char)

/-- A library whose `sprintf` reads the destination before it overwrites it. -/
def libc_append : Libc := ⟨fun dst tail => some (dst ++ tail)⟩

/-- A library whose `sprintf` empties the destination before it formats, as the
fortified `sprintf` of glibc does. -/
def libc_cleared : Libc := ⟨fun _ tail => some tail⟩

/-- The call `sprintf (dst, "%s...", dst, ...)` into an array of `cap` bytes. -/
def sprintf_self (libc : Libc) (cap : Nat) (dst tail : List Char) : Option (List Char) :=
  match libc.overlap dst tail with
  | none => none
  | some s => fits cap s

/-! ## Line reader -/

/-- The bytes one call of the line reader consumes, given how many it may
store: up to and including the first `\n`. -/
def readline_bytes : Nat → List Char → List Char × List Char
  | 0, rp => ([], rp)
  | _ + 1, [] => ([], [])
  | n + 1, c :: rp =>
    if c = '\n' then ([c], rp)
    else ((readline_bytes n rp).1.cons c, (readline_bytes n rp).2)

/-- Modelled from the spec: the Line Reader (`Rio_readlineb` of `csapp.c`, absent
from the sources), a buffered read of one line from the connection stream.  A
call stores at most `maxlen - 1` bytes, stopping after a `\n`, and returns the
buffer read as a C string together with the unread rest of the stream.  What a
call leaves in the buffer once the stream has ended is not described: `none`. -/
def Rio_readlineb (maxlen : Nat) (rp : List Char) : Option (List Char × List Char) :=
  match rp with
  | [] => none
  | _ :: _ => some (cstr (readline_bytes (maxlen - 1) rp).1, (readline_bytes (maxlen - 1) rp).2)

/-- Modelled from the spec: the Line Reader (`Rio_readnb` of `csapp.c`, absent
from the sources), a read of a raw byte count: the next `n` bytes of the
stream, fewer when the stream ends first. -/
def Rio_readnb (rp : List Char) (n : Nat) : List Char × List Char :=
  (rp.take n, rp.drop n)

/-! ## Data model -/

/-- What `stat` and `Open` deliver for a path: `S_ISREG (st_mode)`,
`S_IRUSR & st_mode`, `st_size`, the bytes of the file, and whether
`Open (filename, O_RDONLY, 0)` succeeds for the user the server runs as. -/
structure File where
  isreg : Bool
  irusr : Bool
  st_size : Nat
  data : List Char
  can_open : Bool

/-- The file system seen from the document root: `none` when `stat` fails. -/
abbrev FS := List Char → Option File

/-- Values `parse_uri` leaves behind: its return value and the three buffers. -/
structure ParseUri where
  ret : Int
  uri : List Char
  filename : List Char
  cgiargs : List Char
deriving DecidableEq

/-- Outcome of one call of `doit` on a connection.  `out` is what was written to
the descriptor, `rest` the part of the stream that was not consumed, `child` the
program the forked child executes with its `QUERY_STRING`, and `fatal` tells
that an I/O wrapper ended the process after `out` was written. -/
structure Conn where
  out : List Char
  rest : List Char
  child : Option (List Char × List Char)
  fatal : Bool
deriving DecidableEq

/-- The call that ends a run of `doit`, with its arguments (the descriptor left
out). -/
inductive Call where
  | clienterror (cause errnum shortmsg longmsg : List Char)
  | serve_static (filename : List Char) (filesize : Int) (is_head : Bool)
  | serve_dynamic (filename cgiargs : List Char)
deriving DecidableEq

/-! ## The server -/

/-- The function `parse_uri` (lines 162-196).  `none` when the static branch
reads `uri[strlen(uri)-1]` of an empty `uri`. -/
def parse_uri (uri : List Char) : Option ParseUri :=
  match strstr uri (lit "cgi-bin") with
  | none =>
    -- strcpy(cgiargs, ""); strcpy(filename, "."); strcat(filename, uri);
    let cgiargs := lit ""
    let filename := lit "." ++ uri
    match uri[uri.length - 1]? with
    | none => none
    | some c =>
      if c = '/' then some ⟨1, uri, filename ++ lit "home.html", cgiargs⟩
      else some ⟨1, uri, filename, cgiargs⟩
  | some _ =>
    match index uri '?' with
    | some ptr =>
      -- strcpy(cgiargs, ptr+1); *ptr = '\0';
      let cgiargs := ptr.drop 1
      let uri1 := uri.take (uri.length - ptr.length)
      some ⟨0, uri1, lit "." ++ uri1, cgiargs⟩
    | none =>
      some ⟨0, uri, lit "." ++ uri, lit ""⟩

/-- The function `get_filetype` (lines 228-242). -/
def get_filetype (filename : List Char) : List Char :=
  if (strstr filename (lit ".html")).isSome then lit "text/html"
  else if (strstr filename (lit ".gif")).isSome then lit "image/gif"
  else if (strstr filename (lit ".jpg")).isSome then lit "image/jpeg"
  else if (strstr filename (lit ".png")).isSome then lit "image/png"
  else if (strstr filename (lit ".mpg")).isSome then lit "video/mpeg"
  else lit "text/plain"

/-- The body `clienterror` builds in `body[MAXBUF]` (lines 124-128).  Lines
125-128 format `body` into itself. -/
def clienterror_body (libc : Libc) (MAXBUF : Nat)
    (cause errnum shortmsg longmsg : List Char) : Option (List Char) :=
  (fits MAXBUF (lit "<html><title>Tiny Error</title>")).bind fun b1 =>
  (sprintf_self libc MAXBUF b1 (lit "<body bgcolor=\"ffffff\">\r\n")).bind fun b2 =>
  (sprintf_self libc MAXBUF b2 (errnum ++ lit ": " ++ shortmsg ++ lit "\r\n")).bind fun b3 =>
  (sprintf_self libc MAXBUF b3 (lit "<p>" ++ longmsg ++ lit ": " ++ cause ++ lit "\r\n")).bind
    fun b4 =>
  sprintf_self libc MAXBUF b4 (lit "<hr><em>The Tiny Web server</em>\r\n")

/-- The function `clienterror` (lines 119-146): everything it writes.  The
status line and the two headers are formatted into `buf[MAXLINE]`. -/
def clienterror (libc : Libc) (MAXLINE MAXBUF : Nat)
    (cause errnum shortmsg longmsg : List Char) : Option (List Char) :=
  (clienterror_body libc MAXBUF cause errnum shortmsg longmsg).bind fun body =>
  (fits MAXLINE (lit "HTTP/1.0 " ++ errnum ++ lit " " ++ shortmsg ++ lit "\r\n")).bind fun w1 =>
  (fits MAXLINE (lit "Content-type: text/html\r\n")).bind fun w2 =>
  (fits MAXLINE (lit "Content-length: " ++ fmt_d (toInt32 body.length) ++ lit "\r\n\r\n")).bind
    fun w3 =>
  some (w1 ++ w2 ++ w3 ++ body)

/-- The loop of `read_requesthdrs` (lines 153-158), entered with the line that
was read last in `buf`.  The first argument bounds the number of iterations. -/
def read_requesthdrs_loop (MAXLINE : Nat) :
    Nat → List Char → List Char → Int → Option (Int × List Char)
  | 0, _, _, _ => none
  | fuel + 1, buf, rp, content_length =>
    if strcmp buf (lit "\r\n") = 0 then some (content_length, rp)
    else
      let content_length :=
        if strncasecmp buf (lit "Content-Length:") 15 = 0 then atoi (buf.drop 15)
        else content_length
      match Rio_readlineb MAXLINE rp with
      | none => none
      | some (buf, rp) => read_requesthdrs_loop MAXLINE fuel buf rp content_length

/-- The function `read_requesthdrs` (lines 148-160): the value left in
`*content_length` and the unread rest of the stream.  Every iteration that
returns to the loop head has consumed a byte, so the length of the stream
bounds the number of iterations of a loop that ends. -/
def read_requesthdrs (MAXLINE : Nat) (rp : List Char) (content_length : Int) :
    Option (Int × List Char) :=
  match Rio_readlineb MAXLINE rp with
  | none => none
  | some (buf, rp1) => read_requesthdrs_loop MAXLINE (rp1.length + 1) buf rp1 content_length

/-- The header block `serve_static` builds in `buf[MAXBUF]` (lines 206-210),
after `get_filetype` has filled `filetype[MAXLINE]`.  Lines 208-210 format `buf`
into itself. -/
def static_header (libc : Libc) (MAXLINE MAXBUF : Nat) (filename : List Char)
    (filesize : Int) : Option (List Char) :=
  (fits MAXLINE (get_filetype filename)).bind fun filetype =>
  (fits MAXBUF (lit "HTTP/1.0 200 OK\r\n")).bind fun b1 =>
  (sprintf_self libc MAXBUF b1 (lit "Server: Tiny Web Server\r\n")).bind fun b2 =>
  (sprintf_self libc MAXBUF b2 (lit "Content-length: " ++ fmt_d filesize ++ lit "\r\n")).bind
    fun b3 =>
  sprintf_self libc MAXBUF b3 (lit "Content-type: " ++ filetype ++ lit "\r\n\r\n")

/-- Lines 213-224 of `serve_static`, after the header block was written: the
bytes written then, and whether an I/O wrapper ended the process (`Open` fails,
or `malloc` and `Rio_readn` fail on a negative `filesize`).  `none` when
`filesize` exceeds the bytes read from the file, so that bytes of `srcp` that
were never written are sent. -/
def static_body (fs : FS) (filename : List Char) (filesize : Int) (is_head : Bool) :
    Option (List Char × Bool) :=
  if is_head then some ([], false)
  else
    match fs filename with
    | none => some ([], true)
    | some f =>
      if f.can_open = false then some ([], true)
      else if filesize < 0 then some ([], true)
      else if f.data.length < filesize.toNat then none
      else some (f.data.take filesize.toNat, false)

/-- The function `serve_static` (lines 198-225): what it writes, and whether an
I/O wrapper ended the process. -/
def serve_static (libc : Libc) (MAXLINE MAXBUF : Nat) (fs : FS) (filename : List Char)
    (filesize : Int) (is_head : Bool) : Option (List Char × Bool) :=
  (static_header libc MAXLINE MAXBUF filename filesize).bind fun buf =>
  (static_body fs filename filesize is_head).bind fun p =>
  some (buf ++ p.1, p.2)

/-- The function `serve_dynamic` (lines 244-261): what the parent writes, both
lines formatted into `buf[MAXLINE]`, and the program and `QUERY_STRING` of the
child. -/
def serve_dynamic (MAXLINE : Nat) (filename cgiargs : List Char) :
    Option (List Char × (List Char × List Char)) :=
  (fits MAXLINE (lit "HTTP/1.0 200 OK\r\n")).bind fun w1 =>
  (fits MAXLINE (lit "Server: Tiny Web Server\r\n")).bind fun w2 =>
  some (w1 ++ w2, (filename, cgiargs))

/-- Lines 91-92 of `doit`: `Rio_readnb (&rio, cgiargs, content_length)` followed
by `cgiargs[content_length] = '\0'`, on `cgiargs[MAXLINE]`.  Returns `cgiargs` as
a C string and the unread rest of the stream.  When the stream ends early the
bytes of `cgiargs` that were not overwritten keep what `parse_uri` stored there.
`none` for a `content_length` that is negative or not below `MAXLINE`, where
the index lies outside the array, and when the string would run into bytes of
the buffer that were never written. -/
def read_body (MAXLINE : Nat) (cgiargs rio : List Char) (content_length : Int) :
    Option (List Char × List Char) :=
  if content_length < 0 ∨ (MAXLINE : Int) ≤ content_length then none
  else
    let n := content_length.toNat
    let b := (Rio_readnb rio n).1
    if b.length = n ∨ b.length ≤ cgiargs.length then
      some (cstr ((b ++ cgiargs.drop b.length).take n), (Rio_readnb rio n).2)
    else none

/-- The 403 test of `doit` (lines 103 and 111). -/
def forbidden (sbuf : File) : Bool := !sbuf.isreg || !sbuf.irusr

/-- Lines 95-116 of `doit`: `stat`, and the call the run ends with.  `r` holds
`is_static` and `filename`. -/
def doit_respond (fs : FS) (r : ParseUri) (cgiargs : List Char) (is_head : Bool) : Call :=
  match fs r.filename with
  | none =>
    Call.clienterror r.filename (lit "404") (lit "Not found")
      (lit "Tiny couldn't find this file")
  | some sbuf =>
    if r.ret ≠ 0 then
      if forbidden sbuf then
        Call.clienterror r.filename (lit "403") (lit "Forbidden")
          (lit "Tiny couldn't read the file")
      else Call.serve_static r.filename (toInt32 sbuf.st_size) is_head
    else
      if forbidden sbuf then
        Call.clienterror r.filename (lit "403") (lit "Forbidden")
          (lit "Tiny couldn't run the CGI program")
      else Call.serve_dynamic r.filename cgiargs

/-- The function `doit` (lines 54-117) up to the call it ends with: that call
and the unread rest of the stream.  `none` when `method` or `uri` is read
without having been assigned by `sscanf`, and when `parse_uri` stores more than
`filename[MAXLINE]` holds. -/
def doit_call (MAXLINE : Nat) (fs : FS) (inp : List Char) : Option (Call × List Char) :=
  match Rio_readlineb MAXLINE inp with
  | none => none
  | some (buf, rio) =>
    -- sscanf(buf, "%s %s %s", method, uri, version)
    let method := (scan_token buf).1
    let uri := (scan_token (scan_token buf).2).1
    if method = [] then none
    else if strcasecmp method (lit "GET") ≠ 0 ∧ strcasecmp method (lit "HEAD") ≠ 0
        ∧ strcasecmp method (lit "POST") ≠ 0 then
      some (Call.clienterror method (lit "501") (lit "Not implemented")
        (lit "Tiny does not implement this method"), rio)
    else
      let is_head : Bool := strcasecmp method (lit "HEAD") = 0
      let is_post : Bool := strcasecmp method (lit "POST") = 0
      match read_requesthdrs MAXLINE rio 0 with
      | none => none
      | some (content_length, rio) =>
        if uri = [] then none
        else
          match parse_uri uri with
          | none => none
          | some r =>
            if MAXLINE ≤ r.filename.length then none
            else
              match (if is_post then read_body MAXLINE r.cgiargs rio content_length
                     else some (r.cgiargs, rio)) with
              | none => none
              | some (cgiargs, rio) => some (doit_respond fs r cgiargs is_head, rio)

/-- The effect of the call that ends `doit`. -/
def run_call (libc : Libc) (MAXLINE MAXBUF : Nat) (fs : FS) (call : Call)
    (rio : List Char) : Option Conn :=
  match call with
  | Call.clienterror cause errnum shortmsg longmsg =>
    (clienterror libc MAXLINE MAXBUF cause errnum shortmsg longmsg).bind fun out =>
      some ⟨out, rio, none, false⟩
  | Call.serve_static filename filesize is_head =>
    (serve_static libc MAXLINE MAXBUF fs filename filesize is_head).bind fun p =>
      some ⟨p.1, rio, none, p.2⟩
  | Call.serve_dynamic filename cgiargs =>
    (serve_dynamic MAXLINE filename cgiargs).bind fun p =>
      some ⟨p.1, rio, some p.2, false⟩

/-- The function `doit` (lines 54-117). -/
def doit (libc : Libc) (MAXLINE MAXBUF : Nat) (fs : FS) (inp : List Char) : Option Conn :=
  match doit_call MAXLINE fs inp with
  | none => none
  | some (call, rio) => run_call libc MAXLINE MAXBUF fs call rio

/-! ## Vocabulary of the statements -/

/-- The status line of a response: the bytes before the first `\r`. -/
def status_line (out : List Char) : List Char := out.takeWhile (fun c => c != '\r')

/-- File system of the witnesses: a readable page, a file without the
owner-read bit, a CGI program, and a file with the owner-read bit that the
server cannot open. -/
def demo_fs : FS := fun p =>
  if p = lit "./index.html" then some ⟨true, true, 5, lit "hello", true⟩
  else if p = lit "./secret" then some ⟨true, false, 3, lit "key", false⟩
  else if p = lit "./cgi-bin/adder" then some ⟨true, true, 4, lit "\x7fELF", true⟩
  else if p = lit "./private.txt" then some ⟨true, true, 6, lit "secret", false⟩
  else none

/-- The file name `parse_uri` derives from a static URI. -/
def static_path (uri : List Char) : List Char :=
  lit "." ++ uri ++ (if uri.getLast? = some '/' then lit "home.html" else [])

/-- The header block `serve_static` is meant to send for a file of `n` bytes. -/
def intended_header (filename : List Char) (n : Int) : List Char :=
  lit "HTTP/1.0 200 OK\r\n" ++ lit "Server: Tiny Web Server\r\n" ++
    lit "Content-length: " ++ fmt_d n ++ lit "\r\n" ++
    lit "Content-type: " ++ get_filetype filename ++ lit "\r\n\r\n"

/-- Size of a file of 4 GiB and five bytes. -/
def big_size : Nat := 4294967301

/-- A regular owner-readable file of `big_size` bytes. -/
def big_file : File := ⟨true, true, big_size, List.replicate big_size 'x', true⟩

/-- A document root that holds `big_file` as `big.bin`. -/
def big_fs : FS := fun p => if p = lit "./big.bin" then some big_file else none

/-- Size of a file of 4 GiB. -/
def huge_size : Nat := 4294967296

/-- A regular owner-readable file of `huge_size` bytes. -/
def huge_file : File := ⟨true, true, huge_size, List.replicate huge_size 'x', true⟩

/-- A document root that holds `huge_file` as `huge.bin`. -/
def huge_fs : FS := fun p => if p = lit "./huge.bin" then some huge_file else none

/-- A line as it stands on the wire: text without NUL and without `\n`, closed
by `\r\n`, and short enough to be read by one call of the line reader. -/
def wire_line (MAXLINE : Nat) (l : List Char) : Prop :=
  l.length < MAXLINE ∧ '\x00' ∉ l ∧ l.drop (l.length - 2) = lit "\r\n" ∧
    '\n' ∉ l.take (l.length - 2)

instance wire_line_decidable (MAXLINE : Nat) (l : List Char) :
    Decidable (wire_line MAXLINE l) := by
  unfold wire_line
  infer_instance

/-- The line begins, ignoring case, with `Content-Length:`. -/
def is_content_length (l : List Char) : Prop :=
  (l.take 15).map tolower = lit "content-length:"

instance is_content_length_decidable (l : List Char) : Decidable (is_content_length l) := by
  unfold is_content_length
  infer_instance

/-- The value `read_requesthdrs` holds in `*content_length` after a header line. -/
def next_content_length (cl : Int) (l : List Char) : Int :=
  if is_content_length l then atoi (l.drop 15) else cl

/-- The value of `contentLength` after the header lines `ls`, starting from 0. -/
def content_length_of (ls : List (List Char)) : Int := ls.foldl next_content_length 0

/-- The header lines of a request as they stand on the wire, the closing blank
line not included. -/
def header_block (MAXLINE : Nat) (ls : List (List Char)) : Prop :=
  ∀ l ∈ ls, wire_line MAXLINE l ∧ l ≠ lit "\r\n"

instance header_block_decidable (MAXLINE : Nat) (ls : List (List Char)) :
    Decidable (header_block MAXLINE ls) := by
  unfold header_block
  infer_instance

/-- The file name `parse_uri` derives from a dynamic URI. -/
def dynamic_path (uri : List Char) : List Char :=
  lit "." ++ uri.takeWhile (fun c => c != '?')


/-! ## Facts about the C library functions -/

theorem strstr_eq_none_iff (hay needle : List Char) :
    strstr hay needle = none ↔ ¬ needle <:+: hay := by
  induction hay with
  | nil => cases needle <;> simp [strstr]
  | cons c hay ih =>
    rw [strstr, List.infix_cons_iff]
    by_cases h : needle <+: c :: hay
    · simp [h]
    · simp [h, ih]

theorem strstr_isSome_iff (hay needle : List Char) :
    (strstr hay needle).isSome = true ↔ needle <:+: hay := by
  rw [← not_iff_not, ← strstr_eq_none_iff]
  cases strstr hay needle <;> simp

theorem index_eq_none_iff (s : List Char) (c : Char) : index s c = none ↔ c ∉ s := by
  induction s with
  | nil => simp [index]
  | cons a s ih =>
    rw [index]
    by_cases h : a = c
    · simp [h]
    · have h2 : ¬ c = a := fun e => h e.symm
      simp [h, h2, ih]

theorem index_append_cons (pre post : List Char) (c : Char) (h : c ∉ pre) :
    index (pre ++ c :: post) c = some (c :: post) := by
  induction pre with
  | nil => simp [index]
  | cons a pre ih =>
    have ha : ¬ a = c := fun e => h (by simp [e])
    have hp : c ∉ pre := fun e => h (by simp [e])
    simp [index, ha, ih hp]

theorem exists_first_split (s : List Char) (c : Char) (h : c ∈ s) :
    ∃ pre post, s = pre ++ c :: post ∧ c ∉ pre := by
  induction s with
  | nil => simp at h
  | cons a s ih =>
    by_cases ha : a = c
    · exact ⟨[], s, by simp [ha], by simp⟩
    · have hs : c ∈ s := by
        rcases List.mem_cons.1 h with e | e
        · exact absurd e.symm ha
        · exact e
      obtain ⟨pre, post, e, hn⟩ := ih hs
      refine ⟨a :: pre, post, by simp [e], ?_⟩
      intro hmem
      rcases List.mem_cons.1 hmem with e2 | e2
      · exact ha e2.symm
      · exact hn e2

/-! ## `parse_uri` -/

theorem parse_uri_of_static (uri : List Char) (c : Char) (hlast : uri.getLast? = some c)
    (hs : ¬ lit "cgi-bin" <:+: uri) :
    parse_uri uri =
      some ⟨1, uri, lit "." ++ uri ++ (if c = '/' then lit "home.html" else []), []⟩ := by
  have h1 : strstr uri (lit "cgi-bin") = none := (strstr_eq_none_iff _ _).2 hs
  have h2 : uri[uri.length - 1]? = some c := by rw [← List.getLast?_eq_getElem?]; exact hlast
  unfold parse_uri
  rw [h1]
  simp only [h2]
  by_cases hc : c = '/' <;> simp [hc, lit]

theorem parse_uri_of_dynamic_query (pre post : List Char) (hq : '?' ∉ pre)
    (hd : lit "cgi-bin" <:+: pre ++ '?' :: post) :
    parse_uri (pre ++ '?' :: post) = some ⟨0, pre, lit "." ++ pre, post⟩ := by
  obtain ⟨t, ht⟩ : ∃ t, strstr (pre ++ '?' :: post) (lit "cgi-bin") = some t := by
    have := (strstr_isSome_iff _ _).2 hd
    exact Option.isSome_iff_exists.1 this
  unfold parse_uri
  rw [ht]
  simp [index_append_cons pre post '?' hq]

theorem parse_uri_of_dynamic_plain (uri : List Char) (hq : '?' ∉ uri)
    (hd : lit "cgi-bin" <:+: uri) :
    parse_uri uri = some ⟨0, uri, lit "." ++ uri, []⟩ := by
  obtain ⟨t, ht⟩ : ∃ t, strstr uri (lit "cgi-bin") = some t := by
    have := (strstr_isSome_iff _ _).2 hd
    exact Option.isSome_iff_exists.1 this
  unfold parse_uri
  rw [ht]
  simp [(index_eq_none_iff uri '?').2 hq, lit]

/-! ## Comparison ignoring case -/

theorem char_eq_nul_of_toNat (c : Char) (h : c.toNat = 0) : c = '\x00' := by
  rw [← Char.ofNat_toNat c, h]

theorem char_eq_of_toNat_sub (a b : Char) (h : (a.toNat : Int) - (b.toNat : Int) = 0) :
    a = b := by
  have e : a.toNat = b.toNat := by omega
  rw [← Char.ofNat_toNat a, ← Char.ofNat_toNat b, e]

theorem tolower_toNat_eq_zero (c : Char) (h : (tolower c).toNat = 0) : c.toNat = 0 := by
  unfold tolower Char.toLower at h
  simp only at h
  split at h
  · rename_i hr
    exfalso
    have h1 : 65 ≤ c.toNat := hr.1
    have h2 : c.toNat ≤ 90 := hr.2
    generalize c.toNat = n at h h1 h2
    interval_cases n <;> revert h <;> decide
  · exact h

theorem tolower_ne_nul (c : Char) (h : c ≠ '\x00') : (tolower c).toNat ≠ 0 :=
  fun e => h (char_eq_nul_of_toNat c (tolower_toNat_eq_zero c e))

theorem strcasecmp_eq_zero_iff (a b : List Char) (ha : '\x00' ∉ a) (hb : '\x00' ∉ b) :
    strcasecmp a b = 0 ↔ a.map tolower = b.map tolower := by
  induction a generalizing b with
  | nil =>
    cases b with
    | nil => simp [strcasecmp]
    | cons y ys =>
      have hy : y ≠ '\x00' := fun e => hb (by simp [e])
      have := tolower_ne_nul y hy
      simp only [strcasecmp, List.map_nil, List.map_cons]
      constructor
      · intro h; omega
      · intro h; simp at h
  | cons x xs ih =>
    have hx : x ≠ '\x00' := fun e => ha (by simp [e])
    have hxs : '\x00' ∉ xs := fun e => ha (by simp [e])
    cases b with
    | nil =>
      have := tolower_ne_nul x hx
      simp only [strcasecmp, List.map_nil, List.map_cons]
      constructor
      · intro h; omega
      · intro h; simp at h
    | cons y ys =>
      have hys : '\x00' ∉ ys := fun e => hb (by simp [e])
      simp only [strcasecmp, List.map_cons]
      by_cases e : tolower x = tolower y
      · simp [e, ih ys hxs hys]
      · simp only [e, if_false]
        constructor
        · intro h; exact absurd (char_eq_of_toNat_sub _ _ h) e
        · intro h; exact absurd (List.cons.inj h).1 e

theorem strcmp_eq_zero_iff (a b : List Char) (ha : '\x00' ∉ a) (hb : '\x00' ∉ b) :
    strcmp a b = 0 ↔ a = b := by
  induction a generalizing b with
  | nil =>
    cases b with
    | nil => simp [strcmp]
    | cons y ys =>
      have hy : y.toNat ≠ 0 := fun e => hb (by simp [char_eq_nul_of_toNat y e])
      simp only [strcmp]
      constructor
      · intro h; omega
      · intro h; simp at h
  | cons x xs ih =>
    have hxs : '\x00' ∉ xs := fun e => ha (by simp [e])
    cases b with
    | nil =>
      have hx : x.toNat ≠ 0 := fun e => ha (by simp [char_eq_nul_of_toNat x e])
      simp only [strcmp]
      constructor
      · intro h; omega
      · intro h; simp at h
    | cons y ys =>
      have hys : '\x00' ∉ ys := fun e => hb (by simp [e])
      simp only [strcmp]
      by_cases e : x = y
      · simp [e, ih ys hxs hys]
      · simp only [e, if_false]
        constructor
        · intro h; exact absurd (char_eq_of_toNat_sub _ _ h) e
        · intro h; exact absurd (List.cons.inj h).1 e

/-! ## Buffers hold C strings -/

theorem cstr_nul_free (buf : List Char) : '\x00' ∉ cstr buf := by
  intro h
  have := List.mem_takeWhile_imp h
  simp at this

theorem cstr_of_nul_free (s : List Char) (h : '\x00' ∉ s) : cstr s = s := by
  unfold cstr
  rw [List.takeWhile_eq_self_iff]
  intro x hx
  have : x ≠ '\x00' := fun e => h (e ▸ hx)
  simpa using this

theorem Rio_readlineb_nul_free (maxlen : Nat) (rp buf rio : List Char)
    (h : Rio_readlineb maxlen rp = some (buf, rio)) : '\x00' ∉ buf := by
  cases rp with
  | nil => simp [Rio_readlineb] at h
  | cons c rp =>
    simp only [Rio_readlineb, Option.some.injEq, Prod.mk.injEq] at h
    rw [← h.1]
    exact cstr_nul_free _

theorem scan_token_fst_mem (s : List Char) (c : Char) (h : c ∈ (scan_token s).1) : c ∈ s := by
  unfold scan_token at h
  exact (List.dropWhile_sublist _).subset ((List.takeWhile_sublist _).subset h)

theorem method_nul_free (maxlen : Nat) (rp buf rio : List Char)
    (h : Rio_readlineb maxlen rp = some (buf, rio)) : '\x00' ∉ (scan_token buf).1 :=
  fun hm => Rio_readlineb_nul_free maxlen rp buf rio h (scan_token_fst_mem _ _ hm)

/-! ## Small facts -/

theorem toInt32_of_lt (n : Nat) (h : n < 2147483648) : toInt32 (n : Int) = (n : Int) := by
  unfold toInt32
  omega

theorem toInt32_toNat_le (n : Nat) : (toInt32 (n : Int)).toNat ≤ n := by
  unfold toInt32
  omega

theorem forbidden_eq_false_iff (sbuf : File) :
    forbidden sbuf = false ↔ sbuf.isreg = true ∧ sbuf.irusr = true := by
  unfold forbidden
  cases sbuf.isreg <;> cases sbuf.irusr <;> simp

theorem parse_uri_nil : parse_uri [] = none := by decide

theorem accepted_iff (m : List Char) (hn : '\x00' ∉ m) :
    (¬ (strcasecmp m (lit "GET") ≠ 0 ∧ strcasecmp m (lit "HEAD") ≠ 0 ∧
      strcasecmp m (lit "POST") ≠ 0)) ↔
    (m.map tolower = lit "get" ∨ m.map tolower = lit "head" ∨ m.map tolower = lit "post") := by
  have h1 := strcasecmp_eq_zero_iff m (lit "GET") hn (by decide)
  have h2 := strcasecmp_eq_zero_iff m (lit "HEAD") hn (by decide)
  have h3 := strcasecmp_eq_zero_iff m (lit "POST") hn (by decide)
  have e1 : (lit "GET").map tolower = lit "get" := by decide
  have e2 : (lit "HEAD").map tolower = lit "head" := by decide
  have e3 : (lit "POST").map tolower = lit "post" := by decide
  rw [e1] at h1
  rw [e2] at h2
  rw [e3] at h3
  rw [← h1, ← h2, ← h3]
  tauto

theorem parse_uri_static_path (uri : List Char) (hne : uri ≠ [])
    (hs : ¬ lit "cgi-bin" <:+: uri) :
    parse_uri uri = some ⟨1, uri, static_path uri, []⟩ := by
  obtain ⟨c, hc⟩ : ∃ c, uri.getLast? = some c := by
    cases h : uri.getLast? with
    | none => exact absurd (List.getLast?_eq_none_iff.1 h) hne
    | some c => exact ⟨c, rfl⟩
  rw [parse_uri_of_static uri c hc hs]
  unfold static_path
  rw [hc]
  by_cases e : c = '/' <;> simp [e]

/-! ## Storing strings -/

theorem fits_of_lt (cap : Nat) (s : List Char) (h : s.length < cap) : fits cap s = some s := by
  simp [fits, h]

theorem sprintf_self_append (cap : Nat) (dst tail : List Char)
    (h : (dst ++ tail).length < cap) :
    sprintf_self libc_append cap dst tail = some (dst ++ tail) := by
  have h2 : dst.length + tail.length < cap := by simpa using h
  simp [sprintf_self, libc_append, fits, h2]

/-! ## `doit` up to its last call -/

theorem scan_token_length (s : List Char) :
    (scan_token s).1.length + (scan_token s).2.length ≤ s.length := by
  unfold scan_token
  have h1 := List.takeWhile_append_dropWhile (fun c => !isspace c) (s.dropWhile isspace)
  have h2 := congrArg List.length h1
  rw [List.length_append] at h2
  have h3 := (List.dropWhile_sublist isspace (l := s)).length_le
  simp only at h2 ⊢
  omega

theorem scan_token_fst_length (s : List Char) : (scan_token s).1.length ≤ s.length := by
  have := scan_token_length s
  omega

theorem uri_token_length (s : List Char) (hm : (scan_token s).1 ≠ []) :
    (scan_token (scan_token s).2).1.length + 1 ≤ s.length := by
  have h1 := scan_token_length s
  have h2 := scan_token_fst_length (scan_token s).2
  have h3 : 0 < (scan_token s).1.length := List.length_pos.2 hm
  omega

theorem doit_call_of_rejected (MAXLINE : Nat) (fs : FS) (inp buf rio : List Char)
    (hread : Rio_readlineb MAXLINE inp = some (buf, rio))
    (hm : (scan_token buf).1 ≠ [])
    (hrej : strcasecmp (scan_token buf).1 (lit "GET") ≠ 0 ∧
      strcasecmp (scan_token buf).1 (lit "HEAD") ≠ 0 ∧
      strcasecmp (scan_token buf).1 (lit "POST") ≠ 0) :
    doit_call MAXLINE fs inp =
      some (Call.clienterror (scan_token buf).1 (lit "501") (lit "Not implemented")
        (lit "Tiny does not implement this method"), rio) := by
  unfold doit_call
  rw [hread]
  dsimp only
  rw [if_neg hm, if_pos hrej]

theorem doit_call_of_accepted (MAXLINE : Nat) (fs : FS) (inp buf rio rio1 rio2 : List Char)
    (cl : Int) (r : ParseUri) (cgiargs : List Char)
    (hread : Rio_readlineb MAXLINE inp = some (buf, rio))
    (hm : (scan_token buf).1 ≠ [])
    (hacc : ¬ (strcasecmp (scan_token buf).1 (lit "GET") ≠ 0 ∧
      strcasecmp (scan_token buf).1 (lit "HEAD") ≠ 0 ∧
      strcasecmp (scan_token buf).1 (lit "POST") ≠ 0))
    (hhdr : read_requesthdrs MAXLINE rio 0 = some (cl, rio1))
    (hu : (scan_token (scan_token buf).2).1 ≠ [])
    (hp : parse_uri (scan_token (scan_token buf).2).1 = some r)
    (hfit : r.filename.length < MAXLINE)
    (hb : (if strcasecmp (scan_token buf).1 (lit "POST") = 0
           then read_body MAXLINE r.cgiargs rio1 cl
           else some (r.cgiargs, rio1)) = some (cgiargs, rio2)) :
    doit_call MAXLINE fs inp =
      some (doit_respond fs r cgiargs (decide (strcasecmp (scan_token buf).1 (lit "HEAD") = 0)),
        rio2) := by
  have hfit2 : ¬ MAXLINE ≤ r.filename.length := by omega
  unfold doit_call
  rw [hread]
  dsimp only
  rw [if_neg hm, if_neg hacc, hhdr]
  dsimp only
  rw [if_neg hu, hp]
  dsimp only
  rw [if_neg hfit2]
  simp only [decide_eq_true_eq]
  rw [hb]

theorem doit_eq_run_call (libc : Libc) (MAXLINE MAXBUF : Nat) (fs : FS) (inp : List Char)
    (call : Call) (rio : List Char) (h : doit_call MAXLINE fs inp = some (call, rio)) :
    doit libc MAXLINE MAXBUF fs inp = run_call libc MAXLINE MAXBUF fs call rio := by
  unfold doit
  rw [h]

theorem read_body_full (MAXLINE : Nat) (cgiargs rio : List Char) (cl : Int) (h0 : 0 ≤ cl)
    (hM : cl < MAXLINE) (hl : cl.toNat ≤ rio.length) :
    read_body MAXLINE cgiargs rio cl = some (cstr (rio.take cl.toNat), rio.drop cl.toNat) := by
  have h1 : ¬ (cl < 0 ∨ (MAXLINE : Int) ≤ cl) := by omega
  have h2 : (rio.take cl.toNat).length = cl.toNat := by
    rw [List.length_take]
    omega
  unfold read_body Rio_readnb
  simp only [h1, if_false, h2, true_or, if_true]
  rw [List.take_append_of_le_length (by omega), List.take_take]
  simp

theorem doit_call_of_get_or_head (MAXLINE : Nat) (fs : FS) (inp buf rio rio1 : List Char)
    (cl : Int) (r : ParseUri)
    (hread : Rio_readlineb MAXLINE inp = some (buf, rio))
    (hacc : (scan_token buf).1.map tolower = lit "get" ∨
      (scan_token buf).1.map tolower = lit "head")
    (hhdr : read_requesthdrs MAXLINE rio 0 = some (cl, rio1))
    (hp : parse_uri (scan_token (scan_token buf).2).1 = some r)
    (hfit : r.filename.length < MAXLINE) :
    doit_call MAXLINE fs inp =
      some (doit_respond fs r r.cgiargs
        (decide ((scan_token buf).1.map tolower = lit "head")), rio1) := by
  have hn := method_nul_free MAXLINE inp buf rio hread
  have hm : (scan_token buf).1 ≠ [] := by
    intro e
    rw [e] at hacc
    revert hacc
    decide
  have hu : (scan_token (scan_token buf).2).1 ≠ [] := by
    intro e
    rw [e, parse_uri_nil] at hp
    simp at hp
  have hnp : ¬ strcasecmp (scan_token buf).1 (lit "POST") = 0 := by
    intro h
    have h2 := (strcasecmp_eq_zero_iff _ (lit "POST") hn (by decide)).1 h
    rw [h2] at hacc
    revert hacc
    decide
  have hhd : (strcasecmp (scan_token buf).1 (lit "HEAD") = 0) ↔
      (scan_token buf).1.map tolower = lit "head" := by
    rw [strcasecmp_eq_zero_iff _ (lit "HEAD") hn (by decide)]
    have : (lit "HEAD").map tolower = lit "head" := by decide
    rw [this]
  have hacc2 : (scan_token buf).1.map tolower = lit "get" ∨
      (scan_token buf).1.map tolower = lit "head" ∨
      (scan_token buf).1.map tolower = lit "post" := by tauto
  have hb : (if strcasecmp (scan_token buf).1 (lit "POST") = 0
      then read_body MAXLINE r.cgiargs rio1 cl
      else some (r.cgiargs, rio1)) = some (r.cgiargs, rio1) := if_neg hnp
  rw [doit_call_of_accepted MAXLINE fs inp buf rio rio1 rio1 cl r r.cgiargs hread hm
    ((accepted_iff _ hn).2 hacc2) hhdr hu hp hfit hb]
  have e : decide (strcasecmp (scan_token buf).1 (lit "HEAD") = 0) =
      decide ((scan_token buf).1.map tolower = lit "head") := decide_eq_decide.2 hhd
  rw [e]

theorem doit_call_of_post (MAXLINE : Nat) (fs : FS) (inp buf rio rio1 rio2 : List Char)
    (cl : Int) (r : ParseUri) (cgiargs : List Char)
    (hread : Rio_readlineb MAXLINE inp = some (buf, rio))
    (hacc : (scan_token buf).1.map tolower = lit "post")
    (hhdr : read_requesthdrs MAXLINE rio 0 = some (cl, rio1))
    (hp : parse_uri (scan_token (scan_token buf).2).1 = some r)
    (hfit : r.filename.length < MAXLINE)
    (hb : read_body MAXLINE r.cgiargs rio1 cl = some (cgiargs, rio2)) :
    doit_call MAXLINE fs inp = some (doit_respond fs r cgiargs false, rio2) := by
  have hn := method_nul_free MAXLINE inp buf rio hread
  have hm : (scan_token buf).1 ≠ [] := by
    intro e
    rw [e] at hacc
    revert hacc
    decide
  have hu : (scan_token (scan_token buf).2).1 ≠ [] := by
    intro e
    rw [e, parse_uri_nil] at hp
    simp at hp
  have hpost : strcasecmp (scan_token buf).1 (lit "POST") = 0 := by
    rw [strcasecmp_eq_zero_iff _ (lit "POST") hn (by decide), hacc]
    decide
  have hnh : ¬ strcasecmp (scan_token buf).1 (lit "HEAD") = 0 := by
    intro h
    have h2 := (strcasecmp_eq_zero_iff _ (lit "HEAD") hn (by decide)).1 h
    rw [hacc] at h2
    revert h2
    decide
  have hb2 : (if strcasecmp (scan_token buf).1 (lit "POST") = 0
      then read_body MAXLINE r.cgiargs rio1 cl
      else some (r.cgiargs, rio1)) = some (cgiargs, rio2) := by rw [if_pos hpost, hb]
  rw [doit_call_of_accepted MAXLINE fs inp buf rio rio1 rio2 cl r cgiargs hread hm
    ((accepted_iff _ hn).2 (Or.inr (Or.inr hacc))) hhdr hu hp hfit hb2]
  have e : decide (strcasecmp (scan_token buf).1 (lit "HEAD") = 0) = false := by
    simpa using hnh
  rw [e]

/-! ## The branches of `doit_respond` -/

theorem doit_respond_dynamic (fs : FS) (r : ParseUri) (cgiargs : List Char)
    (is_head : Bool) (sbuf : File) (h : fs r.filename = some sbuf)
    (hf : forbidden sbuf = false) (hr : r.ret = 0) :
    doit_respond fs r cgiargs is_head = Call.serve_dynamic r.filename cgiargs := by
  unfold doit_respond
  rw [h]
  simp [hf, hr]

theorem doit_respond_static (fs : FS) (r : ParseUri) (cgiargs : List Char)
    (is_head : Bool) (sbuf : File) (h : fs r.filename = some sbuf)
    (hf : forbidden sbuf = false) (hr : r.ret ≠ 0) :
    doit_respond fs r cgiargs is_head =
      Call.serve_static r.filename (toInt32 sbuf.st_size) is_head := by
  unfold doit_respond
  rw [h]
  simp [hf, hr]

/-! ## What the calls write -/

theorem serve_dynamic_some (MAXLINE : Nat) (filename cgiargs : List Char) (hM : 25 < MAXLINE) :
    serve_dynamic MAXLINE filename cgiargs =
      some (lit "HTTP/1.0 200 OK\r\n" ++ lit "Server: Tiny Web Server\r\n",
        (filename, cgiargs)) := by
  have h1 : (lit "HTTP/1.0 200 OK\r\n").length = 17 := by decide
  have h2 : (lit "Server: Tiny Web Server\r\n").length = 25 := by decide
  unfold serve_dynamic
  rw [fits_of_lt _ _ (by omega), fits_of_lt _ _ (by omega)]
  rfl

theorem static_body_get (fs : FS) (filename : List Char) (filesize : Int) (f : File)
    (h : fs filename = some f) (hopen : f.can_open = true) (h0 : 0 ≤ filesize)
    (hl : filesize.toNat ≤ f.data.length) :
    static_body fs filename filesize false = some (f.data.take filesize.toNat, false) := by
  have h1 : ¬ filesize < 0 := by omega
  have h2 : ¬ f.data.length < filesize.toNat := by omega
  simp [static_body, h, hopen, h1, h2]

theorem static_body_isSome (fs : FS) (filename : List Char) (f : File) (is_head : Bool)
    (h : fs filename = some f) (hsize : f.data.length = f.st_size) :
    ∃ p, static_body fs filename (toInt32 f.st_size) is_head = some p := by
  cases is_head with
  | true => exact ⟨([], false), by simp [static_body]⟩
  | false =>
    by_cases hopen : f.can_open = false
    · exact ⟨([], true), by simp [static_body, h, hopen]⟩
    · by_cases h0 : toInt32 f.st_size < 0
      · exact ⟨([], true), by simp [static_body, h, hopen, h0]⟩
      · have hl : (toInt32 (f.st_size : Int)).toNat ≤ f.data.length := by
          rw [hsize]
          exact toInt32_toNat_le _
        have ho : f.can_open = true := by simpa using hopen
        exact ⟨_, static_body_get fs filename _ f h ho (by omega) hl⟩

theorem static_header_append (MAXLINE MAXBUF : Nat) (filename : List Char) (n : Int)
    (h1 : (get_filetype filename).length < MAXLINE)
    (h2 : (intended_header filename n).length < MAXBUF) :
    static_header libc_append MAXLINE MAXBUF filename n = some (intended_header filename n) := by
  unfold intended_header at h2
  simp only [List.length_append] at h2
  unfold static_header
  rw [fits_of_lt _ _ h1, Option.some_bind, fits_of_lt _ _ (by omega), Option.some_bind,
    sprintf_self_append _ _ _ (by simp only [List.length_append]; omega), Option.some_bind,
    sprintf_self_append _ _ _ (by simp only [List.length_append]; omega), Option.some_bind,
    sprintf_self_append _ _ _ (by simp only [List.length_append]; omega)]
  simp [intended_header, List.append_assoc]

theorem get_filetype_length (filename : List Char) : (get_filetype filename).length ≤ 10 := by
  unfold get_filetype
  split
  · decide
  · split
    · decide
    · split
      · decide
      · split
        · decide
        · split <;> decide

theorem run_call_dynamic (libc : Libc) (MAXLINE MAXBUF : Nat) (fs : FS)
    (filename cgiargs rio : List Char) (hM : 25 < MAXLINE) :
    run_call libc MAXLINE MAXBUF fs (Call.serve_dynamic filename cgiargs) rio =
      some ⟨lit "HTTP/1.0 200 OK\r\n" ++ lit "Server: Tiny Web Server\r\n", rio,
        some (filename, cgiargs), false⟩ := by
  simp only [run_call]
  rw [serve_dynamic_some MAXLINE filename cgiargs hM]
  rfl

theorem run_call_static_head (libc : Libc) (MAXLINE MAXBUF : Nat) (fs : FS)
    (filename rio : List Char) (filesize : Int) :
    run_call libc MAXLINE MAXBUF fs (Call.serve_static filename filesize true) rio =
      (static_header libc MAXLINE MAXBUF filename filesize).map
        (fun h => ⟨h, rio, none, false⟩) := by
  cases hH : static_header libc MAXLINE MAXBUF filename filesize with
  | none => simp [run_call, serve_static, hH]
  | some h => simp [run_call, serve_static, hH, static_body]

theorem run_call_static_get (libc : Libc) (MAXLINE MAXBUF : Nat) (fs : FS)
    (filename rio : List Char) (filesize : Int) (p : List Char × Bool)
    (hb : static_body fs filename filesize false = some p) :
    run_call libc MAXLINE MAXBUF fs (Call.serve_static filename filesize false) rio =
      (static_header libc MAXLINE MAXBUF filename filesize).map
        (fun h => ⟨h ++ p.1, rio, none, p.2⟩) := by
  cases hH : static_header libc MAXLINE MAXBUF filename filesize with
  | none => simp [run_call, serve_static, hH]
  | some h => simp [run_call, serve_static, hH, hb]

theorem readline_bytes_line (n : Nat) (h t : List Char) (hnl : '\n' ∉ h)
    (hlen : h.length < n) : readline_bytes n (h ++ '\n' :: t) = (h ++ ['\n'], t) := by
  induction h generalizing n with
  | nil =>
    cases n with
    | zero => simp at hlen
    | succ k => simp [readline_bytes]
  | cons c h ih =>
    cases n with
    | zero => simp at hlen
    | succ k =>
      have hc : ¬ c = '\n' := fun e => hnl (by simp [e])
      have hh : '\n' ∉ h := fun e => hnl (by simp [e])
      have hk : h.length < k := by simpa using hlen
      simp [readline_bytes, hc, ih k hh hk]

theorem wire_line_split (MAXLINE : Nat) (l : List Char) (hl : wire_line MAXLINE l) :
    ∃ h, l = h ++ lit "\r\n" ∧ '\n' ∉ h := by
  obtain ⟨_, _, e, hnl⟩ := hl
  refine ⟨l.take (l.length - 2), ?_, hnl⟩
  rw [← e]
  exact (List.take_append_drop _ _).symm

theorem Rio_readlineb_line (MAXLINE : Nat) (l t : List Char) (hl : wire_line MAXLINE l) :
    Rio_readlineb MAXLINE (l ++ t) = some (l, t) := by
  obtain ⟨h, e, hnl⟩ := wire_line_split MAXLINE l hl
  obtain ⟨hlen, hnul, _, _⟩ := hl
  have e2 : l ++ t = (h ++ ['\r']) ++ '\n' :: t := by
    rw [e]
    have : lit "\r\n" = ['\r', '\n'] := rfl
    simp [this]
  have e3 : l = (h ++ ['\r']) ++ ['\n'] := by
    rw [e]
    have : lit "\r\n" = ['\r', '\n'] := rfl
    simp [this]
  have hnl2 : '\n' ∉ h ++ ['\r'] := by
    intro hm
    rcases List.mem_append.1 hm with hm | hm
    · exact hnl hm
    · revert hm; decide
  have hlen2 : (h ++ ['\r']).length < MAXLINE - 1 := by
    rw [e3] at hlen
    simp only [List.length_append, List.length_singleton] at hlen ⊢
    omega
  have hrb := readline_bytes_line (MAXLINE - 1) (h ++ ['\r']) t hnl2 hlen2
  rw [e2]
  cases hcs : (h ++ ['\r']) ++ '\n' :: t with
  | nil => simp at hcs
  | cons a as =>
    rw [← hcs]
    have : Rio_readlineb MAXLINE ((h ++ ['\r']) ++ '\n' :: t) =
        some (cstr (readline_bytes (MAXLINE - 1) ((h ++ ['\r']) ++ '\n' :: t)).1,
          (readline_bytes (MAXLINE - 1) ((h ++ ['\r']) ++ '\n' :: t)).2) := by
      rw [hcs]
      rfl
    rw [this, hrb, ← e3, cstr_of_nul_free l hnul]

theorem blank_line (MAXLINE : Nat) (hM : 2 < MAXLINE) : wire_line MAXLINE (lit "\r\n") :=
  ⟨by simpa [lit] using hM, by decide, by decide, by decide⟩

theorem strncasecmp_content_length (l : List Char) (hn : '\x00' ∉ l) :
    strncasecmp l (lit "Content-Length:") 15 = 0 ↔ is_content_length l := by
  unfold strncasecmp is_content_length
  have hn2 : '\x00' ∉ l.take 15 := fun h => hn (List.mem_of_mem_take h)
  rw [strcasecmp_eq_zero_iff _ _ hn2 (by decide)]
  have : ((lit "Content-Length:").take 15).map tolower = lit "content-length:" := by decide
  rw [this]

theorem read_requesthdrs_loop_lines (MAXLINE : Nat) (hM : 2 < MAXLINE) (rest : List Char)
    (ls : List (List Char)) (hls : ∀ l ∈ ls, wire_line MAXLINE l ∧ l ≠ lit "\r\n") :
    ∀ (fuel : Nat) (buf : List Char) (cl : Int), ls.length + 2 ≤ fuel → '\x00' ∉ buf →
      buf ≠ lit "\r\n" →
      read_requesthdrs_loop MAXLINE fuel buf (ls.flatten ++ lit "\r\n" ++ rest) cl =
        some (ls.foldl next_content_length (next_content_length cl buf), rest) := by
  induction ls with
  | nil =>
    intro fuel buf cl hf hn hb
    obtain ⟨k, rfl⟩ : ∃ k, fuel = k + 2 := ⟨fuel - 2, by simp at hf; omega⟩
    have h1 : ¬ strcmp buf (lit "\r\n") = 0 := by
      rw [strcmp_eq_zero_iff _ _ hn (by decide)]
      exact hb
    have h2 : strcmp (lit "\r\n") (lit "\r\n") = 0 := by decide
    have hr := Rio_readlineb_line MAXLINE (lit "\r\n") rest (blank_line MAXLINE hM)
    simp only [List.flatten_nil, List.nil_append, List.foldl_nil]
    rw [read_requesthdrs_loop, if_neg h1]
    simp only [hr]
    rw [read_requesthdrs_loop, if_pos h2]
    simp only [next_content_length, strncasecmp_content_length buf hn]
  | cons l ls ih =>
    intro fuel buf cl hf hn hb
    obtain ⟨k, rfl⟩ : ∃ k, fuel = k + 1 := ⟨fuel - 1, by simp at hf; omega⟩
    have hl := hls l (by simp)
    have h1 : ¬ strcmp buf (lit "\r\n") = 0 := by
      rw [strcmp_eq_zero_iff _ _ hn (by decide)]
      exact hb
    have hr := Rio_readlineb_line MAXLINE l (ls.flatten ++ lit "\r\n" ++ rest) hl.1
    have e : (l :: ls).flatten ++ lit "\r\n" ++ rest = l ++ (ls.flatten ++ lit "\r\n" ++ rest) := by
      simp [List.append_assoc]
    rw [e, read_requesthdrs_loop, if_neg h1]
    simp only [hr]
    rw [ih (fun x hx => hls x (by simp [hx])) k l _ (by simp at hf; omega) hl.1.2.1 hl.2]
    simp only [next_content_length, strncasecmp_content_length buf hn, List.foldl_cons]

theorem length_le_flatten (ls : List (List Char)) (h : ∀ l ∈ ls, l ≠ []) :
    ls.length ≤ ls.flatten.length := by
  induction ls with
  | nil => simp
  | cons l ls ih =>
    have h1 : l ≠ [] := h l (by simp)
    have h2 : 0 < l.length := List.length_pos.2 h1
    have := ih (fun x hx => h x (by simp [hx]))
    simp only [List.length_cons, List.flatten_cons, List.length_append]
    omega

theorem wire_line_ne_nil (MAXLINE : Nat) (l : List Char) (h : wire_line MAXLINE l) :
    l ≠ [] := by
  obtain ⟨t, e, _⟩ := wire_line_split MAXLINE l h
  rw [e]
  have : lit "\r\n" = ['\r', '\n'] := rfl
  simp [this]

theorem read_requesthdrs_lines (MAXLINE : Nat) (hM : 2 < MAXLINE) (rest : List Char)
    (ls : List (List Char)) (hls : ∀ l ∈ ls, wire_line MAXLINE l ∧ l ≠ lit "\r\n") :
    read_requesthdrs MAXLINE (ls.flatten ++ lit "\r\n" ++ rest) 0 =
      some (ls.foldl next_content_length 0, rest) := by
  cases ls with
  | nil =>
    have hr := Rio_readlineb_line MAXLINE (lit "\r\n") rest (blank_line MAXLINE hM)
    have h2 : strcmp (lit "\r\n") (lit "\r\n") = 0 := by decide
    simp only [List.flatten_nil, List.nil_append, List.foldl_nil]
    rw [read_requesthdrs]
    simp only [hr]
    rw [read_requesthdrs_loop, if_pos h2]
  | cons l ls =>
    have hl := hls l (by simp)
    have hr := Rio_readlineb_line MAXLINE l (ls.flatten ++ lit "\r\n" ++ rest) hl.1
    have e : (l :: ls).flatten ++ lit "\r\n" ++ rest = l ++ (ls.flatten ++ lit "\r\n" ++ rest) := by
      simp [List.append_assoc]
    have hlen := length_le_flatten ls
      (fun x hx => wire_line_ne_nil MAXLINE x (hls x (by simp [hx])).1)
    rw [e, read_requesthdrs]
    simp only [hr]
    rw [read_requesthdrs_loop_lines MAXLINE hM rest ls (fun x hx => hls x (by simp [hx]))
      _ l 0 (by
        have h2 : (lit "\r\n").length = 2 := rfl
        simp only [List.length_append, h2]
        omega) hl.1.2.1 hl.2]
    simp only [List.foldl_cons]

theorem read_requesthdrs_block (MAXLINE : Nat) (hM : 2 < MAXLINE) (rest : List Char)
    (ls : List (List Char)) (hls : header_block MAXLINE ls) :
    read_requesthdrs MAXLINE (ls.flatten ++ lit "\r\n" ++ rest) 0 =
      some (content_length_of ls, rest) :=
  read_requesthdrs_lines MAXLINE hM rest ls hls

theorem takeWhile_before_query (pre post : List Char) (hn : '?' ∉ pre) :
    (pre ++ '?' :: post).takeWhile (fun c => c != '?') = pre := by
  rw [List.takeWhile_append_of_pos]
  · simp
  · intro c hc
    have : c ≠ '?' := fun e => hn (e ▸ hc)
    simpa using this

theorem parse_uri_dynamic_path (uri : List Char) (hd : lit "cgi-bin" <:+: uri) :
    ∃ r, parse_uri uri = some r ∧ r.ret = 0 ∧ r.filename = dynamic_path uri := by
  by_cases hq : '?' ∈ uri
  · obtain ⟨pre, post, e, hn⟩ := exists_first_split uri '?' hq
    subst e
    refine ⟨_, parse_uri_of_dynamic_query pre post hn hd, rfl, ?_⟩
    unfold dynamic_path
    rw [takeWhile_before_query pre post hn]
  · refine ⟨_, parse_uri_of_dynamic_plain uri hq hd, rfl, ?_⟩
    unfold dynamic_path
    have : uri.takeWhile (fun c => c != '?') = uri := by
      rw [List.takeWhile_eq_self_iff]
      intro c hc
      have : c ≠ '?' := fun e => hq (e ▸ hc)
      simpa using this
    rw [this]

/-! ## The claims -/

/-- C1: for every non-empty URI that does not contain "cgi-bin", `parse_uri`
returns 1, leaves an empty query string, and sets the file name to "." followed
by the URI, with "home.html" appended exactly when the last character of the URI
is '/'. -/
theorem parse_uri_static_spec (uri : List Char) (hne : uri ≠ [])
    (hs : ¬ lit "cgi-bin" <:+: uri) :
    ∃ r, parse_uri uri = some r ∧ r.ret = 1 ∧ r.cgiargs = [] ∧
      (uri.getLast? = some '/' → r.filename = lit "." ++ uri ++ lit "home.html") ∧
      (uri.getLast? ≠ some '/' → r.filename = lit "." ++ uri) := by
  obtain ⟨c, hc⟩ : ∃ c, uri.getLast? = some c := by
    cases h : uri.getLast? with
    | none => exact absurd (List.getLast?_eq_none_iff.1 h) hne
    | some c => exact ⟨c, rfl⟩
  refine ⟨_, parse_uri_of_static uri c hc hs, rfl, rfl, ?_, ?_⟩
  · intro h
    have : c = '/' := by rw [hc] at h; exact Option.some.inj h
    simp [this]
  · intro h
    have : ¬ c = '/' := fun e => h (by rw [hc, e])
    simp [this]

theorem parse_uri_static_spec_witness :
    lit "/" ≠ [] ∧ ¬ lit "cgi-bin" <:+: lit "/" ∧
    ∃ r, parse_uri (lit "/") = some r ∧ r.ret = 1 ∧ r.cgiargs = [] ∧
      ((lit "/").getLast? = some '/' → r.filename = lit "." ++ lit "/" ++ lit "home.html") ∧
      ((lit "/").getLast? ≠ some '/' → r.filename = lit "." ++ lit "/") :=
  ⟨by decide, by decide, parse_uri_static_spec (lit "/") (by decide) (by decide)⟩

/-- C2: for every URI that contains "cgi-bin", `parse_uri` returns 0; when the
URI contains a '?', the query string is everything after the first '?' and the
file name is "." followed by the part before that '?'; when it contains none, the
query string is empty and the file name is "." followed by the whole URI. -/
theorem parse_uri_dynamic_spec (uri : List Char) (hd : lit "cgi-bin" <:+: uri) :
    ∃ r, parse_uri uri = some r ∧ r.ret = 0 ∧
      (∀ pre post, uri = pre ++ '?' :: post → '?' ∉ pre →
        r.cgiargs = post ∧ r.filename = lit "." ++ pre) ∧
      ('?' ∉ uri → r.cgiargs = [] ∧ r.filename = lit "." ++ uri) := by
  by_cases hq : '?' ∈ uri
  · obtain ⟨pre, post, e, hn⟩ := exists_first_split uri '?' hq
    subst e
    refine ⟨_, parse_uri_of_dynamic_query pre post hn hd, rfl, ?_, fun h => absurd hq h⟩
    intro pre2 post2 e2 hn2
    have h1 := index_append_cons pre post '?' hn
    rw [e2, index_append_cons pre2 post2 '?' hn2] at h1
    have h3 : post2 = post := by simpa using h1
    subst h3
    have h4 : pre = pre2 := List.append_cancel_right e2
    simp [h4]
  · refine ⟨_, parse_uri_of_dynamic_plain uri hq hd, rfl, ?_, fun _ => ⟨rfl, rfl⟩⟩
    intro pre post e _
    exact absurd (by simp [e]) hq

theorem parse_uri_dynamic_spec_witness :
    lit "cgi-bin" <:+: lit "/cgi-bin/adder?x=1&y=2" ∧
    ∃ r, parse_uri (lit "/cgi-bin/adder?x=1&y=2") = some r ∧ r.ret = 0 ∧
      (∀ pre post, lit "/cgi-bin/adder?x=1&y=2" = pre ++ '?' :: post → '?' ∉ pre →
        r.cgiargs = post ∧ r.filename = lit "." ++ pre) ∧
      ('?' ∉ lit "/cgi-bin/adder?x=1&y=2" → r.cgiargs = [] ∧
        r.filename = lit "." ++ lit "/cgi-bin/adder?x=1&y=2") :=
  ⟨by decide, parse_uri_dynamic_spec (lit "/cgi-bin/adder?x=1&y=2") (by decide)⟩

set_option maxRecDepth 8192

/-- C3: `clienterror` builds the body of its response by formatting `body` into
itself (lines 125-128), which C leaves undefined.  For a DELETE request `doit`
ends with the call of `clienterror` for 501 and reads nothing more, but what it
sends depends on that call: with a library that empties the destination first
the response carries `Content-length: 34` and only the last line of the body,
not the document that names the error and the method; with a library that
appends it carries the whole document. -/
theorem doit_delete_body_overlap :
    doit_call 8192 demo_fs (lit "DELETE /index.html HTTP/1.0\r\nHost: x\r\n\r\n") =
      some (Call.clienterror (lit "DELETE") (lit "501") (lit "Not implemented")
        (lit "Tiny does not implement this method"), lit "Host: x\r\n\r\n") ∧
    doit libc_cleared 8192 8192 demo_fs
        (lit "DELETE /index.html HTTP/1.0\r\nHost: x\r\n\r\n") =
      some ⟨lit "HTTP/1.0 501 Not implemented\r\nContent-type: text/html\r\nContent-length: 34\r\n\r\n<hr><em>The Tiny Web server</em>\r\n",
        lit "Host: x\r\n\r\n", none, false⟩ ∧
    doit libc_append 8192 8192 demo_fs
        (lit "DELETE /index.html HTTP/1.0\r\nHost: x\r\n\r\n") =
      some ⟨lit "HTTP/1.0 501 Not implemented\r\nContent-type: text/html\r\nContent-length: 160\r\n\r\n<html><title>Tiny Error</title><body bgcolor=\"ffffff\">\r\n501: Not implemented\r\n<p>Tiny does not implement this method: DELETE\r\n<hr><em>The Tiny Web server</em>\r\n",
        lit "Host: x\r\n\r\n", none, false⟩ := by
  exact ⟨by decide, by decide, by decide⟩

/-- C5 as stated fails twice, even where `sprintf` appends.  For a file of
2^32 + 5 bytes `st_size` is passed to the `int filesize` of `serve_static`, so
the answer to `GET /big.bin` announces `Content-length: 5` and carries the first
five bytes.  For a file with the owner-read bit that the server cannot open,
the answer to `GET /private.txt` is the header block alone and `Open` ends the
process. -/
theorem doit_get_big_file :
    (big_file.isreg = true ∧ big_file.irusr = true ∧ big_file.can_open = true ∧
      big_file.data.length = big_file.st_size ∧ big_file.st_size = 4294967301 ∧
      ∃ c, doit libc_append 8192 8192 big_fs (lit "GET /big.bin HTTP/1.0\r\n\r\n") = some c ∧
        c.out = lit "HTTP/1.0 200 OK\r\nServer: Tiny Web Server\r\nContent-length: 5\r\nContent-type: text/plain\r\n\r\nxxxxx" ∧
        c.out ≠ intended_header (lit "./big.bin") big_file.st_size ++ big_file.data) ∧
    (demo_fs (lit "./private.txt") = some ⟨true, true, 6, lit "secret", false⟩ ∧
      doit libc_append 8192 8192 demo_fs (lit "GET /private.txt HTTP/1.0\r\n\r\n") =
        some ⟨lit "HTTP/1.0 200 OK\r\nServer: Tiny Web Server\r\nContent-length: 6\r\nContent-type: text/plain\r\n\r\n",
          [], none, true⟩) := by
  refine ⟨?_, rfl, by decide⟩
  have hlen : big_file.data.length = big_file.st_size := List.length_replicate _ _
  have h5 : toInt32 (big_file.st_size : Int) = 5 := by decide
  have hfile : big_fs (lit "./big.bin") = some big_file := if_pos rfl
  have hcall : doit_call 8192 big_fs (lit "GET /big.bin HTTP/1.0\r\n\r\n") =
      some (Call.serve_static (lit "./big.bin") 5 false, []) := by
    have h := doit_call_of_get_or_head 8192 big_fs (lit "GET /big.bin HTTP/1.0\r\n\r\n")
      (lit "GET /big.bin HTTP/1.0\r\n") (lit "\r\n") [] 0
      ⟨1, lit "/big.bin", lit "./big.bin", []⟩ (by decide) (by decide) (by decide) (by decide)
      (by decide)
    rw [h, doit_respond_static big_fs _ _ _ big_file hfile rfl (by decide), h5]
    rfl
  have htake : big_file.data.take 5 = lit "xxxxx" := by
    show List.take 5 (List.replicate big_size 'x') = lit "xxxxx"
    rw [List.take_replicate]
    have : min 5 big_size = 5 := by decide
    rw [this]
    rfl
  have hbody : static_body big_fs (lit "./big.bin") 5 false = some (lit "xxxxx", false) := by
    rw [static_body_get big_fs _ 5 big_file hfile rfl (by decide) (by rw [hlen]; decide)]
    rw [show (5 : Int).toNat = 5 from rfl, htake]
  have hrun := doit_eq_run_call libc_append 8192 8192 big_fs _ _ _ hcall
  rw [run_call_static_get libc_append 8192 8192 big_fs _ _ 5 _ hbody] at hrun
  have hhdr : static_header libc_append 8192 8192 (lit "./big.bin") 5 =
      some (lit "HTTP/1.0 200 OK\r\nServer: Tiny Web Server\r\nContent-length: 5\r\nContent-type: text/plain\r\n\r\n") := by
    decide
  rw [hhdr] at hrun
  refine ⟨rfl, rfl, rfl, hlen, rfl, _, hrun, by decide, ?_⟩
  intro h
  have hl := congrArg List.length h
  simp only [Option.map_some', List.length_append, hlen] at hl
  have h1 : (lit "HTTP/1.0 200 OK\r\nServer: Tiny Web Server\r\nContent-length: 5\r\nContent-type: text/plain\r\n\r\n").length ≤ 200 := by
    decide
  have h3 : (lit "xxxxx").length = 5 := by decide
  have h2 : big_file.st_size = 4294967301 := rfl
  omega

/-- C5, amended: for a GET request with headers closed by a blank line, whose
URI is static and whose target is a regular owner-readable file of fewer than
2^31 bytes that the server can open, `doit` writes the header block that
`serve_static` builds for the exact size and the type of the file, and then the
bytes of the file and nothing else.  What lines 208-210 leave in the header
block is left open; where `sprintf` appends and the block fits `buf`, it is the
status line `HTTP/1.0 200 OK`, the Server header, `Content-length:` with the
exact size, `Content-type:` and a blank line. -/
theorem doit_get_static_spec (libc : Libc) (MAXLINE MAXBUF : Nat) (fs : FS)
    (reqline rest uri : List Char) (ls : List (List Char)) (f : File) (hM : 2 < MAXLINE)
    (hline : wire_line MAXLINE reqline) (hls : header_block MAXLINE ls)
    (hget : (scan_token reqline).1.map tolower = lit "get")
    (hu : (scan_token (scan_token reqline).2).1 = uri)
    (hne : uri ≠ []) (hs : ¬ lit "cgi-bin" <:+: uri)
    (hfit : (static_path uri).length < MAXLINE)
    (hfile : fs (static_path uri) = some f)
    (hreg : f.isreg = true) (hrd : f.irusr = true) (hopen : f.can_open = true)
    (hsize : f.data.length = f.st_size) (hsmall : f.st_size < 2147483648) :
    doit libc MAXLINE MAXBUF fs (reqline ++ (ls.flatten ++ lit "\r\n" ++ rest)) =
      (static_header libc MAXLINE MAXBUF (static_path uri) f.st_size).map
        (fun h => ⟨h ++ f.data, rest, none, false⟩) ∧
    (10 < MAXLINE → (intended_header (static_path uri) f.st_size).length < MAXBUF →
      doit libc_append MAXLINE MAXBUF fs (reqline ++ (ls.flatten ++ lit "\r\n" ++ rest)) =
        some ⟨intended_header (static_path uri) f.st_size ++ f.data, rest, none, false⟩) := by
  have hread := Rio_readlineb_line MAXLINE reqline (ls.flatten ++ lit "\r\n" ++ rest) hline
  have hp := parse_uri_static_path uri hne hs
  have hhdr := read_requesthdrs_block MAXLINE hM rest ls hls
  have e := toInt32_of_lt f.st_size hsmall
  have hcall : doit_call MAXLINE fs (reqline ++ (ls.flatten ++ lit "\r\n" ++ rest)) =
      some (Call.serve_static (static_path uri) f.st_size false, rest) := by
    rw [doit_call_of_get_or_head MAXLINE fs _ reqline _ rest _ _ hread (Or.inl hget) hhdr
      (by rw [hu]; exact hp) hfit]
    have hh : decide ((scan_token reqline).1.map tolower = lit "head") = false := by
      rw [hget]
      decide
    rw [hh, doit_respond_static fs _ _ _ f hfile
      ((forbidden_eq_false_iff f).2 ⟨hreg, hrd⟩) (by simp), e]
  have hbody : static_body fs (static_path uri) f.st_size false = some (f.data, false) := by
    rw [static_body_get fs _ _ f hfile hopen (by omega) (by simp [hsize])]
    simp [hsize.symm]
  have key : ∀ l : Libc,
      doit l MAXLINE MAXBUF fs (reqline ++ (ls.flatten ++ lit "\r\n" ++ rest)) =
        (static_header l MAXLINE MAXBUF (static_path uri) f.st_size).map
          (fun h => ⟨h ++ f.data, rest, none, false⟩) := by
    intro l
    rw [doit_eq_run_call l MAXLINE MAXBUF fs _ _ _ hcall,
      run_call_static_get l MAXLINE MAXBUF fs _ _ _ _ hbody]
  refine ⟨key libc, ?_⟩
  intro h10 hbuf
  rw [key libc_append, static_header_append MAXLINE MAXBUF _ _
    (by have := get_filetype_length (static_path uri); omega) hbuf]
  rfl

theorem doit_get_static_spec_witness :
    wire_line 8192 (lit "GET /index.html HTTP/1.0\r\n") ∧
    header_block 8192 [lit "Host: x\r\n"] ∧
    demo_fs (static_path (lit "/index.html")) = some ⟨true, true, 5, lit "hello", true⟩ ∧
    doit libc_append 8192 8192 demo_fs (lit "GET /index.html HTTP/1.0\r\nHost: x\r\n\r\n") =
      some ⟨lit "HTTP/1.0 200 OK\r\nServer: Tiny Web Server\r\nContent-length: 5\r\nContent-type: text/html\r\n\r\nhello",
        [], none, false⟩ ∧
    doit libc_cleared 8192 8192 demo_fs (lit "GET /index.html HTTP/1.0\r\nHost: x\r\n\r\n") =
      some ⟨lit "Content-type: text/html\r\n\r\nhello", [], none, false⟩ :=
  ⟨by decide, by decide, rfl,
    ((doit_get_static_spec libc_append 8192 8192 demo_fs (lit "GET /index.html HTTP/1.0\r\n") []
      (lit "/index.html") [lit "Host: x\r\n"] ⟨true, true, 5, lit "hello", true⟩
      (by decide) (by decide) (by decide) (by decide) (by decide) (by decide) (by decide)
      (by decide) rfl rfl rfl rfl rfl (by decide)).2 (by decide) (by decide)).trans (by decide),
    ((doit_get_static_spec libc_cleared 8192 8192 demo_fs (lit "GET /index.html HTTP/1.0\r\n") []
      (lit "/index.html") [lit "Host: x\r\n"] ⟨true, true, 5, lit "hello", true⟩
      (by decide) (by decide) (by decide) (by decide) (by decide) (by decide) (by decide)
      (by decide) rfl rfl rfl rfl rfl (by decide)).1).trans (by decide)⟩

/-- C6 as stated fails twice, even where `sprintf` appends.  For a file of
2^32 bytes the `int filesize` of `serve_static` is 0, so the answers to
`GET /huge.bin` and to `HEAD /huge.bin` are the same bytes, and GET is not HEAD
followed by the bytes of the file.  For a file with the owner-read bit that
the server cannot open, the answer to `GET /private.txt` is the answer to HEAD
without one byte of the file. -/
theorem doit_head_get_huge_file :
    (huge_file.isreg = true ∧ huge_file.irusr = true ∧ huge_file.can_open = true ∧
      huge_file.data.length = huge_file.st_size ∧ huge_file.st_size = 4294967296 ∧
      ∃ cG cH, doit libc_append 8192 8192 huge_fs (lit "GET /huge.bin HTTP/1.0\r\n\r\n") =
          some cG ∧
        doit libc_append 8192 8192 huge_fs (lit "HEAD /huge.bin HTTP/1.0\r\n\r\n") = some cH ∧
        status_line cH.out = lit "HTTP/1.0 200 OK" ∧
        cG.out = cH.out ∧ cG.out ≠ cH.out ++ huge_file.data) ∧
    (demo_fs (lit "./private.txt") = some ⟨true, true, 6, lit "secret", false⟩ ∧
      ∃ cG cH, doit libc_append 8192 8192 demo_fs (lit "GET /private.txt HTTP/1.0\r\n\r\n") =
          some cG ∧
        doit libc_append 8192 8192 demo_fs (lit "HEAD /private.txt HTTP/1.0\r\n\r\n") =
          some cH ∧
        status_line cH.out = lit "HTTP/1.0 200 OK" ∧
        cG.out = cH.out ∧ cG.out ≠ cH.out ++ lit "secret") := by
  refine ⟨?_, rfl,
    ⟨lit "HTTP/1.0 200 OK\r\nServer: Tiny Web Server\r\nContent-length: 6\r\nContent-type: text/plain\r\n\r\n",
      [], none, true⟩,
    ⟨lit "HTTP/1.0 200 OK\r\nServer: Tiny Web Server\r\nContent-length: 6\r\nContent-type: text/plain\r\n\r\n",
      [], none, false⟩, by decide, by decide, by decide, by decide, by decide⟩
  have hlen : huge_file.data.length = huge_file.st_size := List.length_replicate _ _
  have h0 : toInt32 (huge_file.st_size : Int) = 0 := by decide
  have hfile : huge_fs (lit "./huge.bin") = some huge_file := if_pos rfl
  have hcG : doit_call 8192 huge_fs (lit "GET /huge.bin HTTP/1.0\r\n\r\n") =
      some (Call.serve_static (lit "./huge.bin") 0 false, []) := by
    have h := doit_call_of_get_or_head 8192 huge_fs (lit "GET /huge.bin HTTP/1.0\r\n\r\n")
      (lit "GET /huge.bin HTTP/1.0\r\n") (lit "\r\n") [] 0
      ⟨1, lit "/huge.bin", lit "./huge.bin", []⟩ (by decide) (by decide) (by decide)
      (by decide) (by decide)
    rw [h, doit_respond_static huge_fs _ _ _ huge_file hfile rfl (by decide), h0]
    rfl
  have hcH : doit_call 8192 huge_fs (lit "HEAD /huge.bin HTTP/1.0\r\n\r\n") =
      some (Call.serve_static (lit "./huge.bin") 0 true, []) := by
    have h := doit_call_of_get_or_head 8192 huge_fs (lit "HEAD /huge.bin HTTP/1.0\r\n\r\n")
      (lit "HEAD /huge.bin HTTP/1.0\r\n") (lit "\r\n") [] 0
      ⟨1, lit "/huge.bin", lit "./huge.bin", []⟩ (by decide) (by decide) (by decide)
      (by decide) (by decide)
    rw [h, doit_respond_static huge_fs _ _ _ huge_file hfile rfl (by decide), h0]
    rfl
  have hbody : static_body huge_fs (lit "./huge.bin") 0 false = some ([], false) := by
    rw [static_body_get huge_fs _ 0 huge_file hfile rfl (by decide) (by simp)]
    simp
  have hhdr : static_header libc_append 8192 8192 (lit "./huge.bin") 0 =
      some (lit "HTTP/1.0 200 OK\r\nServer: Tiny Web Server\r\nContent-length: 0\r\nContent-type: text/plain\r\n\r\n") := by
    decide
  have hG := doit_eq_run_call libc_append 8192 8192 huge_fs _ _ _ hcG
  rw [run_call_static_get libc_append 8192 8192 huge_fs _ _ 0 _ hbody, hhdr] at hG
  have hH := doit_eq_run_call libc_append 8192 8192 huge_fs _ _ _ hcH
  rw [run_call_static_head libc_append 8192 8192 huge_fs _ _ 0, hhdr] at hH
  refine ⟨rfl, rfl, rfl, hlen, rfl, _, _, hG, hH, by decide, by simp, ?_⟩
  intro h
  have hl := congrArg List.length h
  simp only [Option.map_some', List.length_append, hlen, List.append_nil, List.length_nil]
    at hl
  have h2 : huge_file.st_size = 4294967296 := rfl
  omega

/-- C6, amended: for a static target that is a regular owner-readable file,
whatever its size, the answer to HEAD is the header block that `serve_static`
builds for the `int` size and the type of the file, without any body byte, and
the answer to GET for the same URI is that same header block followed by body
bytes; when the file is smaller than 2^31 bytes and the server can open it,
the body bytes are the bytes of the file, so that the answer to GET is the
answer to HEAD followed by the bytes of the file.  What lines 208-210 leave in
the header block is left open; where `sprintf` appends and the block fits
`buf`, it is the status line `HTTP/1.0 200 OK`, the Server, Content-length and
Content-type headers and a blank line. -/
theorem doit_head_get_spec (libc : Libc) (MAXLINE MAXBUF : Nat) (fs : FS)
    (reqG reqH restG restH uri : List Char) (lsG lsH : List (List Char)) (f : File)
    (hM : 2 < MAXLINE)
    (hlineG : wire_line MAXLINE reqG) (hlineH : wire_line MAXLINE reqH)
    (hlsG : header_block MAXLINE lsG) (hlsH : header_block MAXLINE lsH)
    (hget : (scan_token reqG).1.map tolower = lit "get")
    (hhead : (scan_token reqH).1.map tolower = lit "head")
    (huG : (scan_token (scan_token reqG).2).1 = uri)
    (huH : (scan_token (scan_token reqH).2).1 = uri)
    (hne : uri ≠ []) (hs : ¬ lit "cgi-bin" <:+: uri)
    (hfit : (static_path uri).length < MAXLINE)
    (hfile : fs (static_path uri) = some f)
    (hreg : f.isreg = true) (hrd : f.irusr = true)
    (hsize : f.data.length = f.st_size) :
    doit libc MAXLINE MAXBUF fs (reqH ++ (lsH.flatten ++ lit "\r\n" ++ restH)) =
      (static_header libc MAXLINE MAXBUF (static_path uri) (toInt32 f.st_size)).map
        (fun h => ⟨h, restH, none, false⟩) ∧
    (∃ body fatal,
      doit libc MAXLINE MAXBUF fs (reqG ++ (lsG.flatten ++ lit "\r\n" ++ restG)) =
        (static_header libc MAXLINE MAXBUF (static_path uri) (toInt32 f.st_size)).map
          (fun h => ⟨h ++ body, restG, none, fatal⟩)) ∧
    (f.can_open = true → f.st_size < 2147483648 →
      doit libc MAXLINE MAXBUF fs (reqG ++ (lsG.flatten ++ lit "\r\n" ++ restG)) =
        (static_header libc MAXLINE MAXBUF (static_path uri) (toInt32 f.st_size)).map
          (fun h => ⟨h ++ f.data, restG, none, false⟩)) ∧
    (10 < MAXLINE →
      (intended_header (static_path uri) (toInt32 f.st_size)).length < MAXBUF →
      static_header libc_append MAXLINE MAXBUF (static_path uri) (toInt32 f.st_size) =
        some (intended_header (static_path uri) (toInt32 f.st_size))) := by
  have hreadG := Rio_readlineb_line MAXLINE reqG (lsG.flatten ++ lit "\r\n" ++ restG) hlineG
  have hreadH := Rio_readlineb_line MAXLINE reqH (lsH.flatten ++ lit "\r\n" ++ restH) hlineH
  have hp := parse_uri_static_path uri hne hs
  have hok := (forbidden_eq_false_iff f).2 ⟨hreg, hrd⟩
  have hcG : doit_call MAXLINE fs (reqG ++ (lsG.flatten ++ lit "\r\n" ++ restG)) =
      some (Call.serve_static (static_path uri) (toInt32 f.st_size) false, restG) := by
    rw [doit_call_of_get_or_head MAXLINE fs _ reqG _ restG _ _ hreadG (Or.inl hget)
      (read_requesthdrs_block MAXLINE hM restG lsG hlsG) (by rw [huG]; exact hp) hfit]
    have hh : decide ((scan_token reqG).1.map tolower = lit "head") = false := by
      rw [hget]
      decide
    rw [hh, doit_respond_static fs _ _ _ f hfile hok (by simp)]
  have hcH : doit_call MAXLINE fs (reqH ++ (lsH.flatten ++ lit "\r\n" ++ restH)) =
      some (Call.serve_static (static_path uri) (toInt32 f.st_size) true, restH) := by
    rw [doit_call_of_get_or_head MAXLINE fs _ reqH _ restH _ _ hreadH (Or.inr hhead)
      (read_requesthdrs_block MAXLINE hM restH lsH hlsH) (by rw [huH]; exact hp) hfit]
    have hh : decide ((scan_token reqH).1.map tolower = lit "head") = true := by
      rw [hhead]
      decide
    rw [hh, doit_respond_static fs _ _ _ f hfile hok (by simp)]
  have hG := doit_eq_run_call libc MAXLINE MAXBUF fs _ _ _ hcG
  have hH := doit_eq_run_call libc MAXLINE MAXBUF fs _ _ _ hcH
  rw [run_call_static_head] at hH
  refine ⟨hH, ?_, ?_, ?_⟩
  · obtain ⟨p, hb⟩ := static_body_isSome fs (static_path uri) f false hfile hsize
    exact ⟨p.1, p.2, by rw [hG, run_call_static_get libc MAXLINE MAXBUF fs _ _ _ _ hb]⟩
  · intro hopen hsmall
    have e := toInt32_of_lt f.st_size hsmall
    have hb : static_body fs (static_path uri) (toInt32 f.st_size) false =
        some (f.data, false) := by
      rw [e, static_body_get fs _ _ f hfile hopen (by omega) (by simp [hsize])]
      simp [hsize.symm]
    rw [hG, run_call_static_get libc MAXLINE MAXBUF fs _ _ _ _ hb]
  · intro h10 hbuf
    exact static_header_append MAXLINE MAXBUF _ _
      (by have := get_filetype_length (static_path uri); omega) hbuf

theorem doit_head_get_spec_witness :
    wire_line 8192 (lit "GET /index.html HTTP/1.0\r\n") ∧
    wire_line 8192 (lit "HEAD /index.html HTTP/1.1\r\n") ∧
    header_block 8192 [lit "Host: x\r\n"] ∧
    demo_fs (static_path (lit "/index.html")) = some ⟨true, true, 5, lit "hello", true⟩ ∧
    doit libc_append 8192 8192 demo_fs (lit "HEAD /index.html HTTP/1.1\r\nHost: x\r\n\r\n") =
      some ⟨lit "HTTP/1.0 200 OK\r\nServer: Tiny Web Server\r\nContent-length: 5\r\nContent-type: text/html\r\n\r\n",
        [], none, false⟩ ∧
    doit libc_append 8192 8192 demo_fs (lit "GET /index.html HTTP/1.0\r\n\r\n") =
      some ⟨lit "HTTP/1.0 200 OK\r\nServer: Tiny Web Server\r\nContent-length: 5\r\nContent-type: text/html\r\n\r\n" ++
        lit "hello", [], none, false⟩ := by
  obtain ⟨hH, _, hG, _⟩ := doit_head_get_spec libc_append 8192 8192 demo_fs
    (lit "GET /index.html HTTP/1.0\r\n") (lit "HEAD /index.html HTTP/1.1\r\n")
    [] [] (lit "/index.html") [] [lit "Host: x\r\n"]
    ⟨true, true, 5, lit "hello", true⟩ (by decide) (by decide) (by decide) (by decide)
    (by decide) (by decide) (by decide) (by decide) (by decide) (by decide) (by decide)
    (by decide) rfl rfl rfl rfl
  exact ⟨by decide, by decide, by decide, rfl, hH.trans (by decide),
    (hG rfl (by decide)).trans (by decide)⟩

/-- C7 as stated fails for POST: `doit` stores the request body in `cgiargs`
after `parse_uri` has filled it, so for a POST of the body "abc" to
"/cgi-bin/adder?x=1&y=2" the child gets `QUERY_STRING` "abc". -/
theorem doit_post_query_string :
    ∃ c, doit libc_append 8192 8192 demo_fs
        (lit "POST /cgi-bin/adder?x=1&y=2 HTTP/1.0\r\nContent-Length: 3\r\n\r\nabc") = some c ∧
      c.child = some (lit "./cgi-bin/adder", lit "abc") ∧
      c.child ≠ some (lit "./cgi-bin/adder", lit "x=1&y=2") :=
  ⟨⟨lit "HTTP/1.0 200 OK\r\nServer: Tiny Web Server\r\n", [],
    some (lit "./cgi-bin/adder", lit "abc"), false⟩, by decide, by decide, by decide⟩

/-- C7, amended: for a dynamic URI whose target is a regular owner-readable
file and headers closed by a blank line, a GET or HEAD request makes `doit` fork
a child for the file named by the part of the URI before the first '?', with
`QUERY_STRING` equal to everything after that '?', and equal to the empty string
when the URI has no '?'; a POST request whose body is present and whose
`content_length` is not negative and below `MAXLINE`, the size of `cgiargs`,
makes it fork the child with `QUERY_STRING` equal to the body, the next
`content_length` bytes of the stream read as a C string. -/
theorem doit_query_string (libc : Libc) (MAXLINE MAXBUF : Nat) (fs : FS)
    (reqline rest uri : List Char)
    (ls : List (List Char)) (f : File) (hM : 25 < MAXLINE)
    (hline : wire_line MAXLINE reqline) (hls : header_block MAXLINE ls)
    (hu : (scan_token (scan_token reqline).2).1 = uri)
    (hd : lit "cgi-bin" <:+: uri)
    (hfile : fs (dynamic_path uri) = some f) (hreg : f.isreg = true) (hrd : f.irusr = true) :
    (((scan_token reqline).1.map tolower = lit "get" ∨
        (scan_token reqline).1.map tolower = lit "head") →
      ∃ c, doit libc MAXLINE MAXBUF fs (reqline ++ (ls.flatten ++ lit "\r\n" ++ rest)) =
          some c ∧
        (∀ pre post, uri = pre ++ '?' :: post → '?' ∉ pre →
          c.child = some (lit "." ++ pre, post)) ∧
        ('?' ∉ uri → c.child = some (lit "." ++ uri, []))) ∧
    ((scan_token reqline).1.map tolower = lit "post" → 0 ≤ content_length_of ls →
      content_length_of ls < MAXLINE → (content_length_of ls).toNat ≤ rest.length →
      ∃ c, doit libc MAXLINE MAXBUF fs (reqline ++ (ls.flatten ++ lit "\r\n" ++ rest)) =
          some c ∧
        c.child = some (dynamic_path uri, cstr (rest.take (content_length_of ls).toNat))) := by
  have hread := Rio_readlineb_line MAXLINE reqline (ls.flatten ++ lit "\r\n" ++ rest) hline
  have hok := (forbidden_eq_false_iff f).2 ⟨hreg, hrd⟩
  have hhdr := read_requesthdrs_block MAXLINE (by omega) rest ls hls
  obtain ⟨r, hp, hr0, hfn⟩ := parse_uri_dynamic_path uri hd
  rw [← hfn] at hfile
  have hfit : ∀ m : List Char, (scan_token reqline).1.map tolower = m → m ≠ [] →
      r.filename.length < MAXLINE := by
    intro m hm hne
    have h1 : (scan_token reqline).1 ≠ [] := by
      intro e
      rw [e] at hm
      exact hne hm.symm
    have h2 := uri_token_length reqline h1
    rw [hu] at h2
    have h3 : (dynamic_path uri).length ≤ uri.length + 1 := by
      unfold dynamic_path
      have := (List.takeWhile_sublist (fun c => c != '?') (l := uri)).length_le
      simp only [List.length_append]
      have h4 : (lit ".").length = 1 := by decide
      omega
    have h5 := hline.1
    rw [hfn]
    omega
  constructor
  · intro hacc
    have hf : r.filename.length < MAXLINE := by
      rcases hacc with h | h
      · exact hfit _ h (by decide)
      · exact hfit _ h (by decide)
    have hcall := doit_call_of_get_or_head MAXLINE fs _ reqline _ rest _ r hread hacc hhdr
      (by rw [hu]; exact hp) hf
    rw [doit_respond_dynamic fs r r.cgiargs _ f hfile hok hr0] at hcall
    refine ⟨_, (doit_eq_run_call libc MAXLINE MAXBUF fs _ _ _ hcall).trans
      (run_call_dynamic libc MAXLINE MAXBUF fs _ _ _ hM), ?_, ?_⟩
    · intro pre post e hn
      rw [e, parse_uri_of_dynamic_query pre post hn (e ▸ hd)] at hp
      rw [← Option.some.inj hp]
    · intro hq
      rw [parse_uri_of_dynamic_plain uri hq hd] at hp
      rw [← Option.some.inj hp]
  · intro hpost h0 hlt hl
    have hf : r.filename.length < MAXLINE := hfit _ hpost (by decide)
    have hcall := doit_call_of_post MAXLINE fs _ reqline _ rest _ _ r _ hread hpost hhdr
      (by rw [hu]; exact hp) hf (read_body_full MAXLINE r.cgiargs rest _ h0 hlt hl)
    rw [doit_respond_dynamic fs r _ _ f hfile hok hr0] at hcall
    refine ⟨_, (doit_eq_run_call libc MAXLINE MAXBUF fs _ _ _ hcall).trans
      (run_call_dynamic libc MAXLINE MAXBUF fs _ _ _ hM), ?_⟩
    rw [hfn]

theorem doit_query_string_witness :
    wire_line 8192 (lit "GET /cgi-bin/adder?x=1&y=2 HTTP/1.0\r\n") ∧
    header_block 8192 [lit "Host: x\r\n"] ∧
    lit "cgi-bin" <:+: lit "/cgi-bin/adder?x=1&y=2" ∧
    demo_fs (dynamic_path (lit "/cgi-bin/adder?x=1&y=2")) =
      some ⟨true, true, 4, lit "\x7fELF", true⟩ ∧
    ∃ c, doit libc_cleared 8192 8192 demo_fs
        (lit "GET /cgi-bin/adder?x=1&y=2 HTTP/1.0\r\nHost: x\r\n\r\n") =
        some c ∧ c.child = some (lit "./cgi-bin/adder", lit "x=1&y=2") := by
  refine ⟨by decide, by decide, by decide, rfl, ?_⟩
  obtain ⟨c, hc, hq, _⟩ := (doit_query_string libc_cleared 8192 8192 demo_fs
    (lit "GET /cgi-bin/adder?x=1&y=2 HTTP/1.0\r\n") []
    (lit "/cgi-bin/adder?x=1&y=2") [lit "Host: x\r\n"]
    ⟨true, true, 4, lit "\x7fELF", true⟩
    (by decide) (by decide) (by decide) (by decide) (by decide) rfl rfl rfl).1
    (Or.inl (by decide))
  exact ⟨c, hc, hq (lit "/cgi-bin/adder") (lit "x=1&y=2") (by decide) (by decide)⟩

/-- C8: `get_filetype` tests whether ".html" occurs anywhere in the file name, not
whether the name ends in it: "./index.html.bak", whose extension is ".bak", gets
"text/html" and not "text/plain". -/
theorem get_filetype_html_bak :
    get_filetype (lit "./index.html.bak") = lit "text/html" ∧
    ¬ lit ".html" <:+ lit "./index.html.bak" ∧
    get_filetype (lit "./index.html.bak") ≠ lit "text/plain" := by
  decide

/-- C9 as stated fails on a static URI with a '?': for "/index.html?x=1" the file
name keeps the '?' and what follows it, and the query string is empty. -/
theorem parse_uri_static_keeps_query :
    ∃ r, parse_uri (lit "/index.html?x=1") = some r ∧ r.ret = 1 ∧
      r.filename = lit "./index.html?x=1" ∧ '?' ∈ r.filename ∧
      r.cgiargs = [] ∧ r.cgiargs ≠ lit "x=1" :=
  ⟨⟨1, lit "/index.html?x=1", lit "./index.html?x=1", []⟩, by decide, by decide, by decide,
    by decide, by decide, by decide⟩

/-- C9, amended: for every non-empty URI `parse_uri` yields a result; when it
reports not static the URI contained "cgi-bin", and for a '?' in the URI the file
name is "." followed by the part before the first '?', contains no '?', and the
query string is everything after that '?'; when it reports static the query
string is empty and the file name starts with "." followed by the whole URI. -/
theorem parse_uri_query_invariant (uri : List Char) (hne : uri ≠ []) :
    ∃ r, parse_uri uri = some r ∧
      (r.ret = 0 → lit "cgi-bin" <:+: uri ∧
        ∀ pre post, uri = pre ++ '?' :: post → '?' ∉ pre →
          r.filename = lit "." ++ pre ∧ '?' ∉ r.filename ∧ r.cgiargs = post) ∧
      (r.ret ≠ 0 → r.cgiargs = [] ∧ lit "." ++ uri <+: r.filename) := by
  by_cases hd : lit "cgi-bin" <:+: uri
  · by_cases hq : '?' ∈ uri
    · obtain ⟨pre, post, e, hn⟩ := exists_first_split uri '?' hq
      subst e
      refine ⟨_, parse_uri_of_dynamic_query pre post hn hd, ?_, fun h => absurd rfl h⟩
      intro _
      refine ⟨hd, ?_⟩
      intro pre2 post2 e2 hn2
      have h1 := index_append_cons pre post '?' hn
      rw [e2, index_append_cons pre2 post2 '?' hn2] at h1
      have h3 : post2 = post := by simpa using h1
      subst h3
      have h4 : pre = pre2 := List.append_cancel_right e2
      subst h4
      refine ⟨rfl, ?_, rfl⟩
      simp [lit, hn]
    · refine ⟨_, parse_uri_of_dynamic_plain uri hq hd, ?_, fun h => absurd rfl h⟩
      intro _
      refine ⟨hd, ?_⟩
      intro pre post e _
      exact absurd (by simp [e]) hq
  · obtain ⟨c, hc⟩ : ∃ c, uri.getLast? = some c := by
      cases h : uri.getLast? with
      | none => exact absurd (List.getLast?_eq_none_iff.1 h) hne
      | some c => exact ⟨c, rfl⟩
    refine ⟨_, parse_uri_of_static uri c hc hd, ?_, fun _ => ⟨rfl, ?_⟩⟩
    · intro h
      simp at h
    · exact List.prefix_append _ _

theorem parse_uri_query_invariant_witness :
    lit "/cgi-bin/adder?x=1&y=2" ≠ [] ∧
    ∃ r, parse_uri (lit "/cgi-bin/adder?x=1&y=2") = some r ∧
      (r.ret = 0 → lit "cgi-bin" <:+: lit "/cgi-bin/adder?x=1&y=2" ∧
        ∀ pre post, lit "/cgi-bin/adder?x=1&y=2" = pre ++ '?' :: post → '?' ∉ pre →
          r.filename = lit "." ++ pre ∧ '?' ∉ r.filename ∧ r.cgiargs = post) ∧
      (r.ret ≠ 0 → r.cgiargs = [] ∧ lit "." ++ lit "/cgi-bin/adder?x=1&y=2" <+: r.filename) :=
  ⟨by decide, parse_uri_query_invariant (lit "/cgi-bin/adder?x=1&y=2") (by decide)⟩


/-- C10: `read_requesthdrs` takes `content_length` from `atoi`, which reads a
sign, and `doit` uses it unchecked: after the header `Content-Length: -5` the
value is -5, not 0 and not the length of a body, and the POST branch of `doit`
(lines 91-92) then calls `Rio_readnb` with a negative count and stores a NUL at
`cgiargs[-5]`, outside the array, so that the run has no defined result. -/
theorem doit_post_negative_length :
    header_block 8192 [lit "Content-Length: -5\r\n"] ∧
    read_requesthdrs 8192 (lit "Content-Length: -5\r\n\r\nhello") 0 =
      some (-5, lit "hello") ∧
    read_body 8192 [] (lit "hello") (-5) = none ∧
    doit libc_append 8192 8192 demo_fs
      (lit "POST /cgi-bin/adder HTTP/1.0\r\nContent-Length: -5\r\n\r\nhello") = none ∧
    doit libc_cleared 8192 8192 demo_fs
      (lit "POST /cgi-bin/adder HTTP/1.0\r\nContent-Length: -5\r\n\r\nhello") = none := by
  decide

end Tiny
